import Mathlib

/-!
Verification of the command-line resolver of `solc/CommandLineParser.cpp`:
the mode/constraint resolver (`CommandLineParser::parse`), the library
address specifier parser (`CommandLineParser::parseLibraryOption`) and the
combined-json request decoder (`CommandLineParser::parseCombinedJsonOption`),
embedded shallowly as pure Lean functions over an explicit argument map.
-/

namespace Solc

/-! ## Character and string utilities

These mirror the C++/boost string primitives the parser uses:
`boost::is_space`, `boost::trim`, `std::string::find`/`rfind`,
`boost::split`, and `std::set<std::string>` (sorted, deduplicated). -/

/-- The classic-locale space characters recognised by `boost::is_space`. -/
def isSpaceChar (c : Char) : Bool :=
  c = ' ' || c = '\t' || c = '\n' || c = '\x0b' || c = '\x0c' || c = '\r'

/-- `boost::trim`: strip leading and trailing whitespace. -/
def boostTrim (s : String) : String :=
  ⟨((s.data.dropWhile isSpaceChar).reverse.dropWhile isSpaceChar).reverse⟩

/-- `std::string::find(c)`: index of the first occurrence of a character. -/
def firstIdxOf (c : Char) : List Char → Option Nat
  | [] => none
  | x :: xs => if x = c then some 0 else (firstIdxOf c xs).map (· + 1)

/-- `std::string::rfind(c)`: index of the last occurrence of a character. -/
def lastIdxOf (c : Char) : List Char → Option Nat
  | [] => none
  | x :: xs =>
    match lastIdxOf c xs with
    | some i => some (i + 1)
    | none => if x = c then some 0 else none

def isPrefixOfCL : List Char → List Char → Bool
  | [], _ => true
  | _ :: _, [] => false
  | a :: as, b :: bs => a = b && isPrefixOfCL as bs

def isInfixCL (needle : List Char) : List Char → Bool
  | [] => needle.isEmpty
  | h :: t => isPrefixOfCL needle (h :: t) || isInfixCL needle t

/-- Substring containment, used to state that a diagnostic names an option. -/
def strContainsB (hay needle : String) : Bool :=
  isInfixCL needle.data hay.data

/-- Lexicographic byte order on strings (`std::string::operator<`). -/
def charListLt : List Char → List Char → Bool
  | [], [] => false
  | [], _ :: _ => true
  | _ :: _, [] => false
  | a :: as, b :: bs =>
    if a.toNat < b.toNat then true
    else if b.toNat < a.toNat then false
    else charListLt as bs

def strLtB (a b : String) : Bool := charListLt a.data b.data

/-- Insertion into a sorted duplicate-free list: `std::set<std::string>::insert`. -/
def setInsert (x : String) : List String → List String
  | [] => [x]
  | y :: ys => if strLtB x y then x :: y :: ys else if x = y then y :: ys else y :: setInsert x ys

/-- Collect a list of strings into a `std::set<std::string>` (sorted, unique). -/
def toStringSet (l : List String) : List String :=
  l.foldl (fun s x => setInsert x s) []

/-- Split a character list at separator characters, keeping empty pieces
(the behaviour of `boost::split` without `token_compress_on`). -/
def splitCL (p : Char → Bool) : List Char → List (List Char)
  | [] => [[]]
  | c :: cs =>
    let r := splitCL p cs
    if p c then [] :: r
    else
      match r with
      | [] => [[c]]
      | h :: t => (c :: h) :: t

/-- `boost::split(..., is_space() || is_any_of(","), token_compress_on)` followed
by the parser's skipping of empty tokens: tokenize a `--libraries` value. -/
def tokenizeLibs (s : String) : List String :=
  ((splitCL (fun c => isSpaceChar c || c = ',') s.data).map
    (fun l => (⟨l⟩ : String))).filter (fun t => t ≠ "")

/-- `boost::split(..., is_any_of(","))` without token compression: split at
every comma, keeping empty pieces. -/
def splitComma (s : String) : List String :=
  (splitCL (fun c => c = ',') s.data).map (fun l => (⟨l⟩ : String))

/-- Modelled from the spec: `boost::filesystem::path::filename` is external
library code; per the spec (§4.1 step 5) a path with a trailing separator has
the literal `.` as its file-name component. -/
def boostFilename (s : String) : String :=
  match lastIdxOf '/' s.data with
  | none => s
  | some i =>
    if i + 1 = s.data.length then (if s.data.length = 1 then "/" else ".")
    else ⟨s.data.drop (i + 1)⟩

/-- Modelled from the spec: `boost::filesystem::path::remove_filename` is
external library code; it strips the file-name component, so a target with a
trailing separator loses only the artificial `.` component (spec §3: the
target path's parent directory). -/
def removeFilename (s : String) : String :=
  match lastIdxOf '/' s.data with
  | none => ""
  | some i =>
    if i + 1 = s.data.length then ⟨s.data.take i⟩
    else if i = 0 then "/" else ⟨s.data.take i⟩

/-- `joinOptionNames`: prepend `--` to each name and join with `", "`. -/
def joinOptionNames (l : List String) : String :=
  String.intercalate ", " (l.map (fun n => "--" ++ n))

/-- The diagnostic written by `checkMutuallyExclusive`. -/
def mutualMsg (a b : String) : String :=
  "Option " ++ a ++ " and " ++ b ++ " are mutually exclusive."

/-! ## Data model -/

inductive InputMode where
  | Compiler
  | CompilerWithASTImport
  | StandardJson
  | Assembler
  | Linker
deriving DecidableEq, Repr

inductive Machine where
  | EVM
  | Ewasm
deriving DecidableEq, Repr

/-- `yul::AssemblyStack::Language`. -/
inductive AsmLang where
  | Assembly
  | StrictAssembly
  | Yul
  | Ewasm
deriving DecidableEq, Repr

inductive RevertStrings where
  | Default
  | Strip
  | Debug
  | VerboseDebug
deriving DecidableEq, Repr

inductive MetadataHash where
  | IPFS
  | Bzzr1
  | NoHash
deriving DecidableEq, Repr

/-- `CompilerStack::State` as far as `--stop-after` can name it. -/
inductive CompilerState where
  | Parsed
deriving DecidableEq, Repr

/-- An import remapping `context:prefix=target`. -/
structure Remapping where
  context : String
  prefixStr : String
  target : String
deriving DecidableEq, Repr

/-- The 15 independent artifact output flags (`OutputSelection`). -/
structure OutputSelection where
  astCompactJson : Bool := false
  asm_ : Bool := false
  asmJson : Bool := false
  opcodes : Bool := false
  binary : Bool := false
  binaryRuntime : Bool := false
  abi : Bool := false
  ir : Bool := false
  irOptimized : Bool := false
  ewasm : Bool := false
  signatureHashes : Bool := false
  natspecUser : Bool := false
  natspecDev : Bool := false
  metadata : Bool := false
  storageLayout : Bool := false
deriving DecidableEq, Repr

/-- The 17 combined-json request flags (`CombinedJsonRequests`). -/
structure CombinedJsonRequests where
  abi : Bool := false
  metadata : Bool := false
  binary : Bool := false
  binaryRuntime : Bool := false
  opcodes : Bool := false
  asm_ : Bool := false
  storageLayout : Bool := false
  generatedSources : Bool := false
  generatedSourcesRuntime : Bool := false
  srcMap : Bool := false
  srcMapRuntime : Bool := false
  funDebug : Bool := false
  funDebugRuntime : Bool := false
  signatureHashes : Bool := false
  natspecDev : Bool := false
  natspecUser : Bool := false
  ast : Bool := false
deriving DecidableEq, Repr

/-- Modelled from the spec: the field defaults of `CommandLineOptions` live in
`CommandLineParser.h`, which is not part of the provided sources; the spec's
data model (§3) gives input mode `Compiler`, target machine `EVM`, 200 runs
per deployment, unset colored output, and absent optionals as the defaults.
A 20-byte library address is a list of byte values. -/
structure CommandLineOptions where
  sourceFilePaths : List String := []
  standardJsonInputFile : Option String := none
  remappings : List Remapping := []
  addStdin : Bool := false
  basePath : String := ""
  allowedDirectories : List String := []
  ignoreMissingInputFiles : Bool := false
  errorRecovery : Bool := false
  outputDir : Option String := none
  overwriteFiles : Bool := false
  evmVersion : Option String := none
  experimentalViaIR : Bool := false
  revertStrings : RevertStrings := .Default
  stopAfter : Option CompilerState := none
  inputMode : InputMode := .Compiler
  targetMachine : Machine := .EVM
  inputAssemblyLanguage : AsmLang := .Assembly
  libraries : List (String × List Nat) := []
  prettyJson : Bool := false
  coloredOutput : Option Bool := none
  withErrorIds : Bool := false
  selectedOutputs : OutputSelection := {}
  estimateGas : Bool := false
  combinedJsonRequests : Option CombinedJsonRequests := none
  metadataHash : MetadataHash := .IPFS
  metadataLiteral : Bool := false
  optimize : Bool := false
  expectedExecutionsPerDeployment : Nat := 200
  noOptimizeYul : Bool := false
  yulOptimiserSteps : Option String := none
  initializeModelChecker : Bool := false
  mcContracts : Option String := none
  mcEngine : Option String := none
  mcTargets : Option String := none
  mcTimeout : Option Nat := none
deriving DecidableEq, Repr

/-- The raw argument map handed to `CommandLineParser::parse` by the external
`boost::program_options` tokenizer (the spec's `RawArgumentMap`): presence
flags, optional string values, and the positional input-file list. -/
structure Args where
  help : Bool := false
  version : Bool := false
  license : Bool := false
  color : Bool := false
  noColor : Bool := false
  errorIds : Bool := false
  revertStrings : Option String := none
  combinedJson : Option String := none
  outputDir : Option String := none
  overwrite : Bool := false
  prettyJson : Bool := false
  astCompactJson : Bool := false
  asmFlag : Bool := false
  asmJson : Bool := false
  opcodes : Bool := false
  binFlag : Bool := false
  binRuntime : Bool := false
  abi : Bool := false
  ir : Bool := false
  irOptimized : Bool := false
  ewasm : Bool := false
  hashes : Bool := false
  userdoc : Bool := false
  devdoc : Bool := false
  metadata : Bool := false
  storageLayout : Bool := false
  gas : Bool := false
  basePath : Option String := none
  allowPaths : Option String := none
  stopAfter : Option String := none
  standardJson : Bool := false
  link : Bool := false
  assemble : Bool := false
  strictAssembly : Bool := false
  yul : Bool := false
  importAst : Bool := false
  inputFiles : List String := []
  ignoreMissing : Bool := false
  libraries : List String := []
  evmVersion : Option String := none
  machine : Option String := none
  yulDialect : Option String := none
  optimize : Bool := false
  optimizeYulLegacy : Bool := false
  noOptimizeYul : Bool := false
  yulOptimizations : Option String := none
  metadataHash : Option String := none
  mcContracts : Option String := none
  mcEngine : Option String := none
  mcTargets : Option String := none
  mcTimeout : Option Nat := none
  errorRecovery : Bool := false
  optimizeRuns : Nat := 200
  experimentalViaIR : Bool := false
  metadataLiteral : Bool := false
deriving DecidableEq, Repr

/-- Modelled from the spec: the external pure oracles consumed by the resolver
(§6): `revertStringsFromString`, `EVMVersion::fromString`, the Yul optimizer
step-sequence grammar validator (`validateSequence` returns the exception
message on an invalid sequence), the address-checksum oracle pair
(`passesAddressChecksum`, `getChecksummedAddress`), and the model-checker
`fromString` parsers. -/
structure Ext where
  revertStringsFromString : String → Option RevertStrings
  evmVersionFromString : String → Bool
  validateSequence : String → Option String
  passesAddressChecksum : String → Bool
  getChecksummedAddress : String → String
  mcContractsFromString : String → Bool
  mcEngineFromString : String → Bool
  mcTargetsFromString : String → Bool

/-- The outcome of `CommandLineParser::parse`: a diagnostic and `false`, one
of the three early informational exits (help text with `false`; version or
license text with `exit(0)`), or `true` with the resolved options. -/
inductive ParseResult where
  | failure (diag : String)
  | helpExit
  | versionExit
  | licenseExit
  | success (opts : CommandLineOptions)
deriving DecidableEq, Repr

/-- Whether an `Except` computation succeeded. -/
def exceptOkB {e a : Type} : Except e a → Bool
  | .ok _ => true
  | .error _ => false

/-! ## Output selection decoder (`parseCombinedJsonOption`) -/

/-- `g_combinedJsonArgs`: the 19-name vocabulary accepted by `--combined-json`. -/
def g_combinedJsonArgs : List String :=
  ["abi", "asm", "ast", "bin", "bin-runtime", "compact-format", "function-debug",
   "function-debug-runtime", "generated-sources", "generated-sources-runtime",
   "interface", "metadata", "devdoc", "userdoc", "opcodes", "hashes", "srcmap",
   "srcmap-runtime", "storage-layout"]

/-- `CommandLineParser::parseCombinedJsonOption`: absent option leaves the
requests absent; otherwise split the value on commas into a
`std::set<std::string>`, reject the first (in set order) unrecognized token,
and set one bit per recognized artifact name. -/
def parseCombinedJsonOption (cj : Option String) :
    Except String (Option CombinedJsonRequests) :=
  match cj with
  | none => .ok none
  | some s =>
    let requests := toStringSet (splitComma s)
    match requests.find? (fun item => ¬ g_combinedJsonArgs.contains item) with
    | some item => .error ("Invalid option to --combined-json: " ++ item)
    | none =>
      .ok (some
        { abi := requests.contains "abi"
          metadata := requests.contains "metadata"
          binary := requests.contains "bin"
          binaryRuntime := requests.contains "bin-runtime"
          opcodes := requests.contains "opcodes"
          asm_ := requests.contains "asm"
          storageLayout := requests.contains "storage-layout"
          generatedSources := requests.contains "generated-sources"
          generatedSourcesRuntime := requests.contains "generated-sources-runtime"
          srcMap := requests.contains "srcmap"
          srcMapRuntime := requests.contains "srcmap-runtime"
          funDebug := requests.contains "function-debug"
          funDebugRuntime := requests.contains "function-debug-runtime"
          signatureHashes := requests.contains "hashes"
          natspecDev := requests.contains "devdoc"
          natspecUser := requests.contains "userdoc"
          ast := requests.contains "ast" })

/-! ## Input paths and remappings (`parseInputPathsAndRemappings`) -/

/-- Modelled from the spec: `ImportRemapper::parseRemapping` is not part of the
provided sources; per the spec (§3, §4.1 step 5) a remapping positional token
has the shape `context:prefix=target` with an optional context and a
non-empty prefix. -/
def parseRemapping (s : String) : Option Remapping :=
  match firstIdxOf '=' s.data with
  | none => none
  | some i =>
    let lhs := s.data.take i
    let target : String := ⟨s.data.drop (i + 1)⟩
    match firstIdxOf ':' lhs with
    | none => if lhs.isEmpty then none else some ⟨"", ⟨lhs⟩, target⟩
    | some j =>
      let pfx := lhs.drop (j + 1)
      if pfx.isEmpty then none else some ⟨⟨lhs.take j⟩, ⟨pfx⟩, target⟩

/-- One iteration of the positional-token loop in
`parseInputPathsAndRemappings`: a token with `=` is a remapping (its target,
file-name component removed, is allowed), `-` requests stdin, anything else
is a plain source path. -/
def classifyInputToken (o : CommandLineOptions) (path : String) :
    Except String CommandLineOptions :=
  if path.data.contains '=' then
    match parseRemapping path with
    | some r =>
      let eqIdx := (firstIdxOf '=' path.data).getD 0
      let remappingTarget : String := ⟨path.data.drop (eqIdx + 1)⟩
      .ok { o with
        remappings := o.remappings ++ [r]
        allowedDirectories := setInsert (removeFilename remappingTarget) o.allowedDirectories }
    | none => .error ("Invalid remapping: \"" ++ path ++ "\".")
  else if path = "-" then .ok { o with addStdin := true }
  else .ok { o with sourceFilePaths := setInsert path o.sourceFilePaths }

/-- `CommandLineParser::parseInputPathsAndRemappings`. -/
def parseInputPathsAndRemappings (args : Args) (o : CommandLineOptions) :
    Except String CommandLineOptions :=
  (args.inputFiles).foldlM classifyInputToken
    { o with ignoreMissingInputFiles := args.ignoreMissing }

/-! ## Library address parser (`parseLibraryOption`) -/

/-- Modelled from the spec: the hex-decode oracle (§6). A hex digit's value. -/
def hexVal (c : Char) : Option Nat :=
  if '0' ≤ c ∧ c ≤ '9' then some (c.toNat - '0'.toNat)
  else if 'a' ≤ c ∧ c ≤ 'f' then some (c.toNat - 'a'.toNat + 10)
  else if 'A' ≤ c ∧ c ≤ 'F' then some (c.toNat - 'A'.toNat + 10)
  else none

/-- Decode an even-length hex digit sequence into bytes, or fail. -/
def fromHexPairs : List Char → Option (List Nat)
  | [] => some []
  | [_] => none
  | a :: b :: rest =>
    match hexVal a, hexVal b, fromHexPairs rest with
    | some h, some l, some r => some ((16 * h + l) :: r)
    | _, _, _ => none

/-- Modelled from the spec: `solidity::util::fromHex` (the external hex-decode
oracle, §6) returns an empty byte string when the input is not valid hex. -/
def fromHexBytes (l : List Char) : List Nat :=
  (fromHexPairs l).getD []

/-- `h160(binAddr, h160::AlignRight)`: left-pad the decoded bytes to 20. -/
def alignRight20 (b : List Nat) : List Nat :=
  List.replicate (20 - b.length) 0 ++ b

/-- Association-list lookup standing for `std::map<std::string, h160>::count`. -/
def libLookup (name : String) (libs : List (String × List Nat)) : Option (List Nat) :=
  (libs.find? (fun p => p.1 = name)).map (·.2)

/-- Lines 430–466 of `CommandLineParser::parseLibraryOption`: validate a
trimmed address string for the library `libName` (against the accumulated
map `libs`): it must be non-empty, `0x`-prefixed, exactly 40 digits long,
pass the checksum oracle, and decode to a non-zero value of at most 20 bytes
(left-aligned into an `h160`); on success the pair is inserted. -/
def addrValidate (ext : Ext) (libs : List (String × List Nat)) (libName : String)
    (isSeparatorEqualSign : Bool) (addrString : String) :
    Except String (List (String × List Nat)) :=
  if addrString = "" then
    .error ("Empty address provided for library \"" ++ libName ++ "\"." ++
      "\nNote that there should not be any whitespace after the " ++
      (if isSeparatorEqualSign then "equal sign" else "colon") ++ ".")
  else if addrString.data.take 2 = ['0', 'x'] then
    let addrDigits : String := ⟨addrString.data.drop 2⟩
    if addrDigits.data.length ≠ 40 then
      .error ("Invalid length for address for library \"" ++ libName ++ "\": " ++
        toString addrDigits.data.length ++ " instead of 40 characters.")
    else if ¬ ext.passesAddressChecksum addrDigits then
      .error ("Invalid checksum on address for library \"" ++ libName ++ "\": " ++
        addrDigits ++ "\nThe correct checksum is " ++
        ext.getChecksummedAddress addrDigits)
    else
      let binAddr := fromHexBytes addrDigits.data
      let address := alignRight20 binAddr
      if binAddr.length > 20 ∨ address.all (· = 0) then
        .error ("Invalid address for library \"" ++ libName ++ "\": " ++ addrDigits)
      else .ok (libs ++ [(libName, address)])
  else
    .error ("The address " ++ addrString ++ " is not prefixed with \"0x\"." ++
      "\nNote that the address must be prefixed with \"0x\".")

/-- The body of the token loop of `CommandLineParser::parseLibraryOption` for
one non-empty token: find the last `=` (or, failing that, the last `:`) as
separator, forbid a second `=`, split into trimmed name and address, reject a
duplicate name, then validate the address with `addrValidate`. -/
def parseLibraryToken (ext : Ext) (libs : List (String × List Nat)) (lib : String) :
    Except String (List (String × List Nat)) :=
  let cs := lib.data
  let sepInfo : Except String (Nat × Bool) :=
    match lastIdxOf '=' cs with
    | some i =>
      if lastIdxOf '=' cs ≠ firstIdxOf '=' cs then
        .error ("Only one equal sign \"=\" is allowed in the address string \"" ++ lib ++ "\".")
      else .ok (i, true)
    | none =>
      match lastIdxOf ':' cs with
      | some i => .ok (i, false)
      | none =>
        .error ("Equal sign separator missing in library address specifier \"" ++ lib ++ "\"")
  match sepInfo with
  | .error e => .error e
  | .ok (sep, isSeparatorEqualSign) =>
    let libName := boostTrim ⟨cs.take sep⟩
    if (libLookup libName libs).isSome then
      .error ("Address specified more than once for library \"" ++ libName ++ "\".")
    else
      addrValidate ext libs libName isSeparatorEqualSign (boostTrim ⟨cs.drop (sep + 1)⟩)

/-- `CommandLineParser::parseLibraryOption` on one `--libraries` argument
taken literally (the file-existence shortcut is I/O and outside this
embedding): tokenize and process each token in order. -/
def parseLibraryOption (ext : Ext) (libs : List (String × List Nat)) (input : String) :
    Except String (List (String × List Nat)) :=
  (tokenizeLibs input).foldlM (parseLibraryToken ext) libs

/-- The loop in `parse` over all `--libraries` arguments. -/
def parseLibraries (ext : Ext) (libs : List (String × List Nat)) (argsList : List String) :
    Except String (List (String × List Nat)) :=
  argsList.foldlM (parseLibraryOption ext) libs

/-! ## The mode and constraint resolver (`CommandLineParser::parse`)

The strictly ordered validation pipeline of `parse` (after the external
`boost::program_options` tokenizer has produced the argument map), written as
a chain of stages; a stage either continues with the in-progress options
(`.ok`) or ends the whole call (`.error` carrying the final `ParseResult`,
which may itself be a success for the early-returning modes). -/

/-- The options checked pairwise against `--stop-after`, in source order. -/
def stopAfterConflictNames : List String :=
  ["bin", "ir", "ir-optimized", "ewasm", "gas", "asm", "asm-json", "opcodes"]

def stopConflictFlag (args : Args) : String → Bool
  | "bin" => args.binFlag
  | "ir" => args.ir
  | "ir-optimized" => args.irOptimized
  | "ewasm" => args.ewasm
  | "gas" => args.gas
  | "asm" => args.asmFlag
  | "asm-json" => args.asmJson
  | "opcodes" => args.opcodes
  | _ => false

/-- First option conflicting with a present `--stop-after`, if any. -/
def findStopConflict (args : Args) : Option String :=
  if args.stopAfter.isSome then stopAfterConflictNames.find? (stopConflictFlag args)
  else none

/-- Lines 774–817: the `--color`/`--no-color` and `--stop-after` exclusivity
checks, the colored-output and error-id fields, and the help/version/license
early exits (help also fires on an interactive terminal with no arguments). -/
def stageChecksAndExits (args : Args) (interactiveEmpty : Bool) :
    Except ParseResult CommandLineOptions :=
  if args.color && args.noColor then .error (.failure (mutualMsg "color" "no-color"))
  else
    match findStopConflict args with
    | some opt => .error (.failure (mutualMsg "stop-after" opt))
    | none =>
      let o : CommandLineOptions :=
        { coloredOutput :=
            if args.color then some true else if args.noColor then some false else none
          withErrorIds := args.errorIds }
      if args.help || interactiveEmpty then .error .helpExit
      else if args.version then .error .versionExit
      else if args.license then .error .licenseExit
      else .ok o

/-- Lines 819–834: resolve `--revert-strings` via the external oracle;
`verboseDebug` is recognised but unimplemented. -/
def stageRevertStrings (ext : Ext) (args : Args) (o : CommandLineOptions) :
    Except ParseResult CommandLineOptions :=
  match args.revertStrings with
  | none => .ok o
  | some s =>
    match ext.revertStringsFromString s with
    | none => .error (.failure ("Invalid option for --revert-strings: " ++ s))
    | some rs =>
      if rs = .VerboseDebug then
        .error (.failure
          "Only \"default\", \"strip\" and \"debug\" are implemented for --revert-strings for now.")
      else .ok { o with revertStrings := rs }

/-- Line 836: decode `--combined-json` (before any mode is selected). -/
def stageCombinedJson (args : Args) (o : CommandLineOptions) :
    Except ParseResult CommandLineOptions :=
  match parseCombinedJsonOption args.combinedJson with
  | .error e => .error (.failure e)
  | .ok r => .ok { o with combinedJsonRequests := r }

/-- Lines 839–897: output directory, overwrite, pretty-json, the 15 artifact
flags, gas estimation, base path, allowed paths (with the trailing-separator
`.` stripped), and the `--stop-after` value (only `parsing` is valid). -/
def stageOutputs (args : Args) (o : CommandLineOptions) :
    Except ParseResult CommandLineOptions :=
  let o := { o with
    outputDir := args.outputDir
    overwriteFiles := args.overwrite
    prettyJson := args.prettyJson
    selectedOutputs :=
      { astCompactJson := args.astCompactJson
        asm_ := args.asmFlag
        asmJson := args.asmJson
        opcodes := args.opcodes
        binary := args.binFlag
        binaryRuntime := args.binRuntime
        abi := args.abi
        ir := args.ir
        irOptimized := args.irOptimized
        ewasm := args.ewasm
        signatureHashes := args.hashes
        natspecUser := args.userdoc
        natspecDev := args.devdoc
        metadata := args.metadata
        storageLayout := args.storageLayout }
    estimateGas := args.gas }
  let o :=
    match args.basePath with
    | none => o
    | some b => { o with basePath := b }
  let o :=
    match args.allowPaths with
    | none => o
    | some s =>
      { o with allowedDirectories :=
          ((splitComma s).foldl
            (fun acc p =>
              setInsert (if boostFilename p = "." then removeFilename p else p) acc)
            o.allowedDirectories) }
  match args.stopAfter with
  | none => .ok o
  | some s =>
    if s ≠ "parsing" then
      .error (.failure "Valid options for --stop-after are: \"parsing\".")
    else .ok { o with stopAfter := some .Parsed }

/-- The six mutually exclusive top-level mode options, in source order. -/
def exclusiveModes : List String :=
  ["standard-json", "link", "assemble", "strict-assembly", "yul", "import-ast"]

/-- `countEnabledOptions(exclusiveModes)`. -/
def enabledModeCount (args : Args) : Nat :=
  (cond args.standardJson 1 0) + (cond args.link 1 0) + (cond args.assemble 1 0) +
  (cond args.strictAssembly 1 0) + (cond args.yul 1 0) + (cond args.importAst 1 0)

/-- The diagnostic of the mode-exclusivity check: it joins the whole
`exclusiveModes` list, not just the enabled options. -/
def modesExclusiveMsg : String :=
  "The following options are mutually exclusive: " ++ joinOptionNames exclusiveModes ++
  ". Select at most one."

/-- Lines 899–912: at most one top-level mode may be enabled. -/
def stageModeExclusive (args : Args) (o : CommandLineOptions) :
    Except ParseResult CommandLineOptions :=
  if enabledModeCount args > 1 then .error (.failure modesExclusiveMsg)
  else .ok o

/-- Lines 914–930: standard-JSON mode returns success immediately, allowing
at most one positional input file. -/
def stageStandardJson (args : Args) (o : CommandLineOptions) :
    Except ParseResult CommandLineOptions :=
  if args.standardJson then
    let o := { o with inputMode := .StandardJson }
    match args.inputFiles with
    | [] => .error (.success o)
    | [f] => .error (.success { o with standardJsonInputFile := some f })
    | _ =>
      .error (.failure "If --standard-json is used, only zero or one input files are supported.")
  else .ok o

/-- Lines 932–950: positional paths and remappings, the `--libraries`
arguments, and the EVM version oracle. -/
def stageInputsLibs (ext : Ext) (args : Args) (o : CommandLineOptions) :
    Except ParseResult CommandLineOptions :=
  match parseInputPathsAndRemappings args o with
  | .error d => .error (.failure d)
  | .ok o =>
    match parseLibraries ext o.libraries args.libraries with
    | .error d => .error (.failure d)
    | .ok libs =>
      let o := { o with libraries := libs }
      match args.evmVersion with
      | none => .ok o
      | some v =>
        if ext.evmVersionFromString v then .ok { o with evmVersion := some v }
        else .error (.failure ("Invalid option for --evm-version: " ++ v))

/-- The options of the fixed denylist that are enabled, in source order
(lines 956–963). -/
def assemblerDeny (args : Args) : List String :=
  (([("output-dir", args.outputDir.isSome), ("gas", args.gas),
     ("combined-json", args.combinedJson.isSome),
     ("optimize-yul", args.optimizeYulLegacy),
     ("no-optimize-yul", args.noOptimizeYul)].filter (·.2)).map (·.1))

/-- Lines 984–1003: the explicit Yul optimizer step sequence in assembler
mode requires `--optimize` and a valid sequence. -/
def asmStepYulOpt (ext : Ext) (args : Args) (o : CommandLineOptions) :
    Except ParseResult CommandLineOptions :=
  match args.yulOptimizations with
  | none => .ok o
  | some steps =>
    if ¬ o.optimize then
      .error (.failure "--yul-optimizations is invalid if Yul optimizer is disabled")
    else
      match ext.validateSequence steps with
      | some e =>
        .error (.failure ("Invalid optimizer step sequence in --yul-optimizations: " ++ e))
      | none => .ok { o with yulOptimiserSteps := some steps }

/-- Lines 1005–1017: resolve `--machine`. -/
def asmStepMachine (args : Args) (o : CommandLineOptions) :
    Except ParseResult CommandLineOptions :=
  match args.machine with
  | none => .ok o
  | some m =>
    if m = "evm" then .ok { o with targetMachine := .EVM }
    else if m = "ewasm" then .ok { o with targetMachine := .Ewasm }
    else .error (.failure ("Invalid option for --machine: " ++ m))

/-- Lines 1020–1040: resolve `--yul-dialect`. -/
def asmStepDialect (args : Args) (o : CommandLineOptions) :
    Except ParseResult CommandLineOptions :=
  match args.yulDialect with
  | none => .ok o
  | some d =>
    if d = "evm" then .ok { o with inputAssemblyLanguage := .StrictAssembly }
    else if d = "ewasm" then
      let o := { o with inputAssemblyLanguage := .Ewasm }
      if o.targetMachine ≠ .Ewasm then
        .error (.failure
          "If you select Ewasm as --yul-dialect, --machine has to be Ewasm as well.")
      else .ok o
    else .error (.failure ("Invalid option for --yul-dialect: " ++ d))

/-- The tail of assembler mode after the denylist check: optimizer steps,
machine, the silent Ewasm upgrade, dialect, and the final restrictions. -/
def assemblerModeTail (ext : Ext) (args : Args) (o : CommandLineOptions) : ParseResult :=
  match asmStepYulOpt ext args o with
  | .error r => r
  | .ok o =>
    match asmStepMachine args o with
    | .error r => r
    | .ok o =>
      let o :=
        if o.targetMachine = .Ewasm ∧ o.inputAssemblyLanguage = .StrictAssembly then
          { o with inputAssemblyLanguage := .Ewasm }
        else o
      match asmStepDialect args o with
      | .error r => r
      | .ok o =>
        if o.optimize = true ∧ o.inputAssemblyLanguage ≠ .StrictAssembly ∧
            o.inputAssemblyLanguage ≠ .Ewasm then
          .failure "Optimizer can only be used for strict assembly. Use --strict-assembly."
        else if o.targetMachine = .Ewasm ∧ o.inputAssemblyLanguage ≠ .StrictAssembly ∧
            o.inputAssemblyLanguage ≠ .Ewasm then
          .failure ("The selected input language is not directly supported when targeting the Ewasm machine " ++
            "and automatic translation is not available.")
        else .success o

/-- Lines 952–1061: assembler mode. Reject denylisted options, resolve the
input language, and run the rest of the assembler-mode checks. -/
def assemblerMode (ext : Ext) (args : Args) (o : CommandLineOptions) : ParseResult :=
  let o := { o with inputMode := .Assembler }
  if assemblerDeny args ≠ [] then
    .failure ("The following options are invalid in assembly mode: " ++
      joinOptionNames (assemblerDeny args) ++ "." ++
      (if args.optimizeYulLegacy || args.noOptimizeYul then
        " Optimization is disabled by default and can be enabled with --optimize."
      else ""))
  else
    assemblerModeTail ext args { o with
      inputAssemblyLanguage :=
        if args.yul then .Yul else if args.strictAssembly then .StrictAssembly else .Assembly
      optimize := args.optimize
      noOptimizeYul := args.noOptimizeYul }

/-- Lines 952–1073: dispatch to assembler mode, reject stray assembly-only
flags, and handle linker mode (which returns success immediately). -/
def stageAssemblerLinker (ext : Ext) (args : Args) (o : CommandLineOptions) :
    Except ParseResult CommandLineOptions :=
  if args.assemble || args.strictAssembly || args.yul then
    .error (assemblerMode ext args o)
  else if args.yulDialect.isSome || args.machine.isSome then
    .error (.failure "--yul-dialect and --machine are only valid in assembly mode.")
  else if args.link then
    .error (.success { o with inputMode := .Linker })
  else .ok o

/-- Lines 1075–1089: resolve the metadata-hash policy. -/
def stageMetadataHash (args : Args) (o : CommandLineOptions) :
    Except ParseResult CommandLineOptions :=
  match args.metadataHash with
  | none => .ok o
  | some s =>
    if s = "ipfs" then .ok { o with metadataHash := .IPFS }
    else if s = "swarm" then .ok { o with metadataHash := .Bzzr1 }
    else if s = "none" then .ok { o with metadataHash := .NoHash }
    else .error (.failure ("Invalid option for --metadata-hash: " ++ s))

/-- Lines 1091–1128: resolve the four model-checker sub-settings via their
external oracles. -/
def stageModelChecker (ext : Ext) (args : Args) (o : CommandLineOptions) :
    Except ParseResult CommandLineOptions :=
  let stepContracts : Except ParseResult CommandLineOptions :=
    match args.mcContracts with
    | none => .ok o
    | some s =>
      if ext.mcContractsFromString s then .ok { o with mcContracts := some s }
      else .error (.failure ("Invalid option for --model-checker-contracts: " ++ s))
  match stepContracts with
  | .error r => .error r
  | .ok o =>
    let stepEngine : Except ParseResult CommandLineOptions :=
      match args.mcEngine with
      | none => .ok o
      | some s =>
        if ext.mcEngineFromString s then .ok { o with mcEngine := some s }
        else .error (.failure ("Invalid option for --model-checker-engine: " ++ s))
    match stepEngine with
    | .error r => .error r
    | .ok o =>
      let stepTargets : Except ParseResult CommandLineOptions :=
        match args.mcTargets with
        | none => .ok o
        | some s =>
          if ext.mcTargetsFromString s then .ok { o with mcTargets := some s }
          else .error (.failure ("Invalid option for --model-checker-targets: " ++ s))
      match stepTargets with
      | .error r => .error r
      | .ok o =>
        match args.mcTimeout with
        | none => .ok o
        | some t => .ok { o with mcTimeout := some t }

/-- Lines 1130–1140: the simple flag fields of plain compiler mode. -/
def stageSimpleFlags (args : Args) (o : CommandLineOptions) :
    Except ParseResult CommandLineOptions :=
  .ok { o with
    metadataLiteral := args.metadataLiteral
    initializeModelChecker :=
      args.mcContracts.isSome || args.mcEngine.isSome || args.mcTargets.isSome ||
      args.mcTimeout.isSome
    experimentalViaIR := args.experimentalViaIR
    expectedExecutionsPerDeployment := args.optimizeRuns
    optimize := args.optimize
    noOptimizeYul := args.noOptimizeYul }

/-- Modelled from the spec: `OptimiserSettings::standard()` has the Yul
optimizer sub-stage enabled and `OptimiserSettings::minimal()` has it
disabled (§4.1 step 11: an explicit step sequence without `--optimize`
fails); `--no-optimize-yul` then forces the sub-stage off. -/
def runYulOptimiserAfterPresets (optimize noOptimizeYul : Bool) : Bool :=
  optimize && !noOptimizeYul

/-- Lines 1142–1164: in plain compiler mode an explicit Yul optimizer step
sequence requires the Yul optimizer sub-stage to be enabled after the presets
and the `--no-optimize-yul` override, and must pass the external validator. -/
def stageOptimizerSettings (ext : Ext) (args : Args) (o : CommandLineOptions) :
    Except ParseResult CommandLineOptions :=
  match args.yulOptimizations with
  | none => .ok o
  | some steps =>
    if ¬ runYulOptimiserAfterPresets o.optimize o.noOptimizeYul then
      .error (.failure "--yul-optimizations is invalid if Yul optimizer is disabled")
    else
      match ext.validateSequence steps with
      | some e =>
        .error (.failure ("Invalid optimizer step sequence in --yul-optimizations: " ++ e))
      | none => .ok { o with yulOptimiserSteps := some steps }

/-- Lines 1166–1169: `--import-ast` switches the mode (and skips reading the
error-recovery flag); otherwise the mode stays `Compiler`. -/
def stageModeFinal (args : Args) (o : CommandLineOptions) :
    Except ParseResult CommandLineOptions :=
  if args.importAst then .ok { o with inputMode := .CompilerWithASTImport }
  else .ok { o with errorRecovery := args.errorRecovery }

/-- `CommandLineParser::parse`: the ordered validation pipeline.
`interactiveEmpty` stands for `interactiveTerminal && _argc == 1`, which also
triggers the help text. -/
def parse (ext : Ext) (interactiveEmpty : Bool) (args : Args) : ParseResult :=
  match stageChecksAndExits args interactiveEmpty with
  | .error r => r
  | .ok o =>
  match stageRevertStrings ext args o with
  | .error r => r
  | .ok o =>
  match stageCombinedJson args o with
  | .error r => r
  | .ok o =>
  match stageOutputs args o with
  | .error r => r
  | .ok o =>
  match stageModeExclusive args o with
  | .error r => r
  | .ok o =>
  match stageStandardJson args o with
  | .error r => r
  | .ok o =>
  match stageInputsLibs ext args o with
  | .error r => r
  | .ok o =>
  match stageAssemblerLinker ext args o with
  | .error r => r
  | .ok o =>
  match stageMetadataHash args o with
  | .error r => r
  | .ok o =>
  match stageModelChecker ext args o with
  | .error r => r
  | .ok o =>
  match stageSimpleFlags args o with
  | .error r => r
  | .ok o =>
  match stageOptimizerSettings ext args o with
  | .error r => r
  | .ok o =>
  match stageModeFinal args o with
  | .error r => r
  | .ok o => .success o

/-- A trivial instantiation of the external oracles, used to evaluate the
pipeline on concrete inputs. -/
def extTriv : Ext :=
  { revertStringsFromString := fun _ => none
    evmVersionFromString := fun _ => false
    validateSequence := fun _ => none
    passesAddressChecksum := fun _ => true
    getChecksummedAddress := fun s => s
    mcContractsFromString := fun _ => false
    mcEngineFromString := fun _ => false
    mcTargetsFromString := fun _ => false }

/-! ## Supporting lemmas -/

theorem lastIdxOf_eq_none {c : Char} : ∀ {l : List Char}, l.contains c = false →
    lastIdxOf c l = none
  | [], _ => rfl
  | x :: xs, h => by
    have hx : (x = c) = False := by
      simp only [List.contains_cons, Bool.or_eq_false_iff] at h
      simp only [eq_iff_iff, iff_false]
      intro hxc
      exact absurd h.1 (by simp [hxc])
    have hxs : xs.contains c = false := by
      simp only [List.contains_cons, Bool.or_eq_false_iff] at h
      exact h.2
    simp [lastIdxOf, lastIdxOf_eq_none hxs, hx]

theorem lastIdxOf_append_cons {c : Char} : ∀ (a : List Char) {b : List Char},
    a.contains c = false → b.contains c = false →
    lastIdxOf c (a ++ c :: b) = some a.length
  | [], b, _, hb => by simp [lastIdxOf, lastIdxOf_eq_none hb]
  | x :: a, b, ha, hb => by
    have ha2 : a.contains c = false := by
      simp only [List.contains_cons, Bool.or_eq_false_iff] at ha
      exact ha.2
    simp [lastIdxOf, lastIdxOf_append_cons a ha2 hb]

theorem firstIdxOf_append_cons {c : Char} : ∀ (a : List Char) (b : List Char),
    a.contains c = false →
    firstIdxOf c (a ++ c :: b) = some a.length
  | [], b, _ => by simp [firstIdxOf]
  | x :: a, b, ha => by
    have hx : (x = c) = False := by
      simp only [List.contains_cons, Bool.or_eq_false_iff] at ha
      simp only [eq_iff_iff, iff_false]
      intro hxc
      exact absurd ha.1 (by simp [hxc])
    have ha2 : a.contains c = false := by
      simp only [List.contains_cons, Bool.or_eq_false_iff] at ha
      exact ha.2
    simp [firstIdxOf, hx, firstIdxOf_append_cons a b ha2]

theorem splitCL_no_sep {p : Char → Bool} : ∀ {l : List Char}, (∀ c ∈ l, p c = false) →
    splitCL p l = [l]
  | [], _ => rfl
  | x :: xs, h => by
    have hx : p x = false := h x (by simp)
    have hxs : splitCL p xs = [xs] := splitCL_no_sep (fun c hc => h c (by simp [hc]))
    simp [splitCL, hx, hxs]

theorem dropWhile_of_all_false {p : Char → Bool} : ∀ {l : List Char},
    (∀ c ∈ l, p c = false) → l.dropWhile p = l
  | [], _ => rfl
  | x :: xs, h => by
    have hx : p x = false := h x (by simp)
    simp [List.dropWhile_cons, hx]

theorem boostTrim_of_no_space {s : String}
    (h : ∀ c ∈ s.data, isSpaceChar c = false) : boostTrim s = s := by
  unfold boostTrim
  rw [dropWhile_of_all_false h, dropWhile_of_all_false (by simpa using h), List.reverse_reverse]

theorem isPrefixOfCL_refl : ∀ (l : List Char), isPrefixOfCL l l = true
  | [] => rfl
  | x :: xs => by simp [isPrefixOfCL, isPrefixOfCL_refl xs]

theorem isInfixCL_append_self : ∀ (a b : List Char), isInfixCL b (a ++ b) = true
  | [], [] => rfl
  | [], x :: xs => by simp [isInfixCL, isPrefixOfCL_refl]
  | y :: a, b => by simp [isInfixCL, isInfixCL_append_self a b]

/-- A diagnostic that ends with a string contains that string. -/
theorem strContainsB_append_self (a b : String) : strContainsB (a ++ b) b = true := by
  unfold strContainsB
  rw [String.data_append]
  exact isInfixCL_append_self a.data b.data

theorem data_name_eq_addr (name addr : String) :
    (name ++ "=" ++ addr).data = name.data ++ '=' :: addr.data := by
  rw [String.data_append, String.data_append]
  show (name.data ++ ['=']) ++ addr.data = _
  rw [List.append_assoc]
  rfl

/-- On a token `name=addr` with a single `=`, `parseLibraryToken` resolves the
separator to that `=`, takes `name` as the library name, and hands the
trimmed address to the validation tail. -/
theorem parseLibraryToken_sep (ext : Ext) (libs : List (String × List Nat))
    (name addr : String)
    (hn : name.data.contains '=' = false) (ha : addr.data.contains '=' = false)
    (htrim : boostTrim name = name) :
    parseLibraryToken ext libs (name ++ "=" ++ addr) =
      if (libLookup name libs).isSome then
        .error ("Address specified more than once for library \"" ++ name ++ "\".")
      else addrValidate ext libs name true (boostTrim addr) := by
  have hdata := data_name_eq_addr name addr
  have hlast : lastIdxOf '=' (name ++ "=" ++ addr).data = some name.data.length := by
    rw [hdata]; exact lastIdxOf_append_cons name.data hn ha
  have hfirst : firstIdxOf '=' (name ++ "=" ++ addr).data = some name.data.length := by
    rw [hdata]; exact firstIdxOf_append_cons name.data addr.data hn
  have htake : (name ++ "=" ++ addr).data.take name.data.length = name.data := by
    rw [hdata]; exact List.take_left name.data ('=' :: addr.data)
  have hdrop : (name ++ "=" ++ addr).data.drop (name.data.length + 1) = addr.data := by
    rw [hdata]
    have : name.data ++ '=' :: addr.data = (name.data ++ ['=']) ++ addr.data := by
      simp
    rw [this]
    have hlen : (name.data ++ ['=']).length = name.data.length + 1 := by simp
    rw [← hlen]
    exact List.drop_left (name.data ++ ['=']) addr.data
  have hname : (⟨name.data⟩ : String) = name := rfl
  have haddr : (⟨addr.data⟩ : String) = addr := rfl
  simp only [parseLibraryToken, hlast, hfirst, ne_eq, not_true_eq_false, Bool.false_eq_true,
    if_false, ite_false, htake, hdrop, hname, haddr, htrim]

/-- A specifier with no whitespace and no comma is a single token. -/
theorem tokenizeLibs_single (name addr : String)
    (h1 : ∀ c ∈ name.data, (isSpaceChar c || c = ',') = false)
    (h2 : ∀ c ∈ addr.data, (isSpaceChar c || c = ',') = false) :
    tokenizeLibs (name ++ "=" ++ addr) = [name ++ "=" ++ addr] := by
  have hdata := data_name_eq_addr name addr
  have hall : ∀ c ∈ (name ++ "=" ++ addr).data, (isSpaceChar c || c = ',') = false := by
    rw [hdata]; intro c hc
    rcases List.mem_append.1 hc with h | h
    · exact h1 c h
    · rcases List.mem_cons.1 h with h | h
      · subst h; decide
      · exact h2 c h
  unfold tokenizeLibs
  rw [splitCL_no_sep hall]
  have he : (⟨(name ++ "=" ++ addr).data⟩ : String) = name ++ "=" ++ addr := rfl
  have hne : ¬ (name ++ "=" ++ addr) = "" := by
    intro h
    have h2 := congrArg String.data h
    rw [hdata] at h2
    simp at h2
  simp only [List.map_cons, List.map_nil, he]
  simp [List.filter_cons, hne]

/-- `parseLibraryOption` on a one-token argument is `parseLibraryToken`. -/
theorem parseLibraryOption_single (ext : Ext) (libs : List (String × List Nat))
    (name addr : String)
    (htok : tokenizeLibs (name ++ "=" ++ addr) = [name ++ "=" ++ addr]) :
    parseLibraryOption ext libs (name ++ "=" ++ addr) =
      parseLibraryToken ext libs (name ++ "=" ++ addr) := by
  unfold parseLibraryOption
  rw [htok]
  rcases h : parseLibraryToken ext libs (name ++ "=" ++ addr) with e | v <;>
    simp [List.foldlM, h, Except.bind]

/-- Processing the `--libraries` arguments one token at a time: folding the
per-argument parser over the argument list is folding the per-token parser
over the concatenated token stream. -/
theorem parseLibraries_join (ext : Ext) : ∀ (argsList : List String)
    (libs : List (String × List Nat)),
    parseLibraries ext libs argsList =
      ((argsList.map tokenizeLibs).flatten).foldlM (parseLibraryToken ext) libs := by
  intro argsList
  induction argsList with
  | nil => intro libs; rfl
  | cons a rest ih =>
    intro libs
    show parseLibraryOption ext libs a >>= (fun m => parseLibraries ext m rest) = _
    rw [List.map_cons, List.flatten_cons, List.foldlM_append]
    rcases h : parseLibraryOption ext libs a with e | m
    · unfold parseLibraryOption at h
      rw [h]
      rfl
    · unfold parseLibraryOption at h
      rw [h]
      show parseLibraries ext m rest = _
      exact ih m

/-- A duplicate library name aborts the token stream at the second
occurrence, whatever follows. -/
theorem foldTokens_dup (ext : Ext) (pre rest : List String)
    (m : List (String × List Nat)) (name addr : String)
    (hn : name.data.contains '=' = false)
    (ha : addr.data.contains '=' = false)
    (htrim : boostTrim name = name)
    (hpre : pre.foldlM (parseLibraryToken ext) ([] : List (String × List Nat)) = .ok m)
    (hdup : (libLookup name m).isSome = true) :
    (pre ++ (name ++ "=" ++ addr) :: rest).foldlM (parseLibraryToken ext)
        ([] : List (String × List Nat)) =
      .error ("Address specified more than once for library \"" ++ name ++ "\".") := by
  rw [List.foldlM_append, hpre]
  show ((name ++ "=" ++ addr) :: rest).foldlM (parseLibraryToken ext) m = _
  show parseLibraryToken ext m (name ++ "=" ++ addr) >>= _ = _
  rw [parseLibraryToken_sep ext m name addr hn ha htrim, if_pos hdup]
  rfl

/-- A successful hex decode determines the length and forces every digit to
be hex. -/
theorem fromHexPairs_some_spec : ∀ (l : List Char) (b : List Nat),
    fromHexPairs l = some b →
    l.length = 2 * b.length ∧ ∀ c ∈ l, (hexVal c).isSome = true
  | [], b, h => by
    simp only [fromHexPairs, Option.some.injEq] at h
    subst h
    simp
  | [c], b, h => by
    simp [fromHexPairs] at h
  | a :: c :: rest, b, h => by
    simp only [fromHexPairs] at h
    rcases hva : hexVal a with _ | va <;> rw [hva] at h
    · simp at h
    rcases hvc : hexVal c with _ | vc <;> rw [hvc] at h
    · simp at h
    rcases hfp : fromHexPairs rest with _ | r <;> rw [hfp] at h
    · simp at h
    simp only [Option.some.injEq] at h
    subst h
    obtain ⟨hlen, hall⟩ := fromHexPairs_some_spec rest r hfp
    constructor
    · simp [hlen]
      omega
    · intro x hx
      rcases List.mem_cons.1 hx with h | hx2
    
      · subst h; simp [hva]
      · rcases List.mem_cons.1 hx2 with h | hx3
        · subst h; simp [hvc]
        · exact hall x hx3

/-- An even-length all-hex digit sequence decodes. -/
theorem fromHexPairs_total : ∀ (l : List Char), l.length % 2 = 0 →
    (∀ c ∈ l, (hexVal c).isSome = true) →
    ∃ b, fromHexPairs l = some b ∧ b.length = l.length / 2
  | [], _, _ => ⟨[], rfl, rfl⟩
  | [c], h, _ => by simp at h
  | a :: c :: rest, h, hall => by
    have h2 : rest.length % 2 = 0 := by
      simp only [List.length_cons] at h
      omega
    obtain ⟨b, hb, hlen⟩ :=
      fromHexPairs_total rest h2 (fun x hx => hall x (by simp [hx]))
    have ha := hall a (by simp)
    have hc := hall c (by simp)
    rcases hva : hexVal a with _ | va
    · rw [hva] at ha; simp at ha
    rcases hvc : hexVal c with _ | vc
    · rw [hvc] at hc; simp at hc
    refine ⟨(16 * va + vc) :: b, ?_, ?_⟩
    · simp [fromHexPairs, hva, hvc, hb]
    · simp only [List.length_cons, hlen]
      omega

/-- The success case of the address validation tail, as an iff. -/
theorem addrValidate_ok_iff (ext : Ext) (name addr : String) :
    addrValidate ext [] name true addr =
        .ok [(name, alignRight20 (fromHexBytes (addr.data.drop 2)))]
      ↔ (addr.data.take 2 = ['0', 'x']
         ∧ (addr.data.drop 2).length = 40
         ∧ (∀ c ∈ addr.data.drop 2, (hexVal c).isSome = true)
         ∧ ext.passesAddressChecksum ⟨addr.data.drop 2⟩ = true
         ∧ (alignRight20 (fromHexBytes (addr.data.drop 2))).all (· = 0) = false) := by
  unfold addrValidate
  have hD : ((⟨addr.data.drop 2⟩ : String)).data = addr.data.drop 2 := rfl
  by_cases he : addr = ""
  · subst he
    simp
  · rw [if_neg he]
    by_cases hp : addr.data.take 2 = ['0', 'x']
    · rw [if_pos hp]
      by_cases hl : (addr.data.drop 2).length = 40
      · rw [if_neg (by simp [hD, hl])]
        by_cases hcs : ext.passesAddressChecksum ⟨addr.data.drop 2⟩ = true
        · rw [if_neg (by simp [hcs])]
          by_cases hhex : ∀ c ∈ addr.data.drop 2, (hexVal c).isSome = true
          · obtain ⟨b, hb, hblen⟩ :=
              fromHexPairs_total (addr.data.drop 2) (by omega) hhex
            have hbin : fromHexBytes (addr.data.drop 2) = b := by
              simp [fromHexBytes, hb]
            have hb20 : b.length = 20 := by omega
            have hpad : alignRight20 b = b := by
              simp [alignRight20, hb20]
            by_cases hz :
                (alignRight20 (fromHexBytes (addr.data.drop 2))).all (· = 0) = true
            · rw [if_pos (by right; exact hz)]
              simp [hp, hl, hhex, hcs, hz]
            · rw [if_neg (by
                intro hor
                rcases hor with hgt | hzz
                · rw [hD, hbin, hb20] at hgt
                  omega
                · exact hz hzz)]
              simp only [List.nil_append, hD]
              constructor
              · intro _
                refine ⟨hp, hl, hhex, hcs, by simp [hz]⟩
              · intro _
                trivial
          · have hfpn : fromHexPairs (addr.data.drop 2) = none := by
              rcases hfp : fromHexPairs (addr.data.drop 2) with _ | b
              · rfl
              · exact absurd (fun c hc => (fromHexPairs_some_spec _ b hfp).2 c hc) hhex
            have hbin : fromHexBytes (addr.data.drop 2) = [] := by
              simp [fromHexBytes, hfpn]
            rw [if_pos (by
              right
              rw [hD, hbin]
              rfl)]
            simp [hhex]
        · rw [if_pos (by simp [hcs])]
          simp [hcs]
      · rw [if_pos hl]
        exact iff_of_false (by simp) (fun hcon => hl hcon.2.1)
    · rw [if_neg hp]
      simp [hp]

/-- The wrong-length case of the address validation tail. -/
theorem addrValidate_len (ext : Ext) (name addr : String)
    (hp : addr.data.take 2 = ['0', 'x'])
    (hl : (addr.data.drop 2).length ≠ 40) :
    addrValidate ext [] name true addr =
      .error ("Invalid length for address for library \"" ++ name ++ "\": " ++
        toString (addr.data.drop 2).length ++ " instead of 40 characters.") := by
  unfold addrValidate
  have he : ¬ addr = "" := by
    intro h
    subst h
    simp at hp
  rw [if_neg he, if_pos hp, if_pos hl]

/-- The checksum-mismatch case of the address validation tail. -/
theorem addrValidate_checksum (ext : Ext) (name addr : String)
    (hp : addr.data.take 2 = ['0', 'x'])
    (hl : (addr.data.drop 2).length = 40)
    (hcs : ext.passesAddressChecksum ⟨addr.data.drop 2⟩ = false) :
    addrValidate ext [] name true addr =
      .error ("Invalid checksum on address for library \"" ++ name ++ "\": " ++
        (⟨addr.data.drop 2⟩ : String) ++ "\nThe correct checksum is " ++
        ext.getChecksummedAddress ⟨addr.data.drop 2⟩) := by
  unfold addrValidate
  have he : ¬ addr = "" := by
    intro h
    subst h
    simp at hp
  rw [if_neg he, if_pos hp, if_neg (fun hh => hh hl), if_pos (by simp [hcs])]

/-! ### Frame lemmas for the combined-json requests field

The `combinedJsonRequests` field is written exactly once, by
`stageCombinedJson`; every other stage preserves it, both when continuing
and on the early-returning successes. -/

theorem stageChecksAndExits_cjr_ok (args : Args) (ie : Bool)
    (o2 : CommandLineOptions) (h : stageChecksAndExits args ie = .ok o2) :
    o2.combinedJsonRequests = none := by
  unfold stageChecksAndExits at h
  repeat' split at h
  all_goals simp_all
  all_goals subst h; rfl

theorem stageChecksAndExits_cjr_err (args : Args) (ie : Bool) (r : ParseResult)
    (h : stageChecksAndExits args ie = .error r) :
    ∀ p, r ≠ .success p := by
  unfold stageChecksAndExits at h
  repeat' split at h
  all_goals simp_all
  all_goals subst h
  all_goals intro p
  all_goals simp

theorem stageRevertStrings_cjr (ext : Ext) (args : Args) (o : CommandLineOptions) :
    (∀ o2, stageRevertStrings ext args o = .ok o2 →
      o2.combinedJsonRequests = o.combinedJsonRequests)
    ∧ ∀ r p, stageRevertStrings ext args o = .error r → r ≠ .success p := by
  constructor
  · intro o2 h
    unfold stageRevertStrings at h
    repeat' split at h
    all_goals simp_all
    all_goals subst h; rfl
  · intro r p h
    unfold stageRevertStrings at h
    repeat' split at h
    all_goals simp_all
    all_goals subst h
    all_goals simp

theorem parseCombinedJsonOption_isSome (cj : Option String)
    (x : Option CombinedJsonRequests) (h : parseCombinedJsonOption cj = .ok x) :
    x.isSome = cj.isSome := by
  cases cj with
  | none =>
    have h2 : (none : Option CombinedJsonRequests) = x := Except.ok.inj h
    rw [← h2]
    rfl
  | some s =>
    simp only [parseCombinedJsonOption] at h
    rcases hf : (toStringSet (splitComma s)).find?
        (fun item => ¬ g_combinedJsonArgs.contains item) with _ | item
    · simp only [hf] at h
      rw [← Except.ok.inj h]
      rfl
    · simp only [hf] at h
      exact absurd h (by simp)

theorem stageCombinedJson_cjr (args : Args) (o : CommandLineOptions) :
    (∀ o2, stageCombinedJson args o = .ok o2 →
      o2.combinedJsonRequests.isSome = args.combinedJson.isSome)
    ∧ ∀ r p, stageCombinedJson args o = .error r → r ≠ .success p := by
  constructor
  · intro o2 h
    unfold stageCombinedJson at h
    split at h
    · simp_all
    · rename_i x hx
      simp only [Except.ok.injEq] at h
      subst h
      exact parseCombinedJsonOption_isSome args.combinedJson x hx
  · intro r p h
    unfold stageCombinedJson at h
    repeat' split at h
    all_goals simp_all
    all_goals subst h
    all_goals simp

set_option maxHeartbeats 1000000 in
theorem stageOutputs_cjr (args : Args) (o : CommandLineOptions) :
    (∀ o2, stageOutputs args o = .ok o2 →
      o2.combinedJsonRequests = o.combinedJsonRequests)
    ∧ ∀ r p, stageOutputs args o = .error r → r ≠ .success p := by
  constructor
  · intro o2 h
    unfold stageOutputs at h
    repeat' split at h
    all_goals simp_all
    all_goals subst h
    all_goals repeat' split
    all_goals rfl
  · intro r p h
    unfold stageOutputs at h
    repeat' split at h
    all_goals simp_all
    all_goals subst h
    all_goals simp

theorem stageModeExclusive_cjr (args : Args) (o : CommandLineOptions) :
    (∀ o2, stageModeExclusive args o = .ok o2 →
      o2.combinedJsonRequests = o.combinedJsonRequests)
    ∧ ∀ r p, stageModeExclusive args o = .error r → r ≠ .success p := by
  constructor
  · intro o2 h
    unfold stageModeExclusive at h
    repeat' split at h
    all_goals simp_all
  · intro r p h
    unfold stageModeExclusive at h
    repeat' split at h
    all_goals simp_all
    all_goals subst h
    all_goals simp

theorem stageStandardJson_cjr (args : Args) (o : CommandLineOptions) :
    (∀ o2, stageStandardJson args o = .ok o2 →
      o2.combinedJsonRequests = o.combinedJsonRequests)
    ∧ ∀ r p, stageStandardJson args o = .error r → r = .success p →
      p.combinedJsonRequests = o.combinedJsonRequests := by
  constructor
  · intro o2 h
    unfold stageStandardJson at h
    repeat' split at h
    all_goals simp_all
  · intro r p h hr
    subst hr
    unfold stageStandardJson at h
    repeat' split at h
    all_goals simp_all
    all_goals subst h; rfl

theorem classifyInputToken_cjr (o : CommandLineOptions) (t : String)
    (o2 : CommandLineOptions) (h : classifyInputToken o t = .ok o2) :
    o2.combinedJsonRequests = o.combinedJsonRequests := by
  unfold classifyInputToken at h
  repeat' split at h
  all_goals simp_all
  all_goals subst h; rfl

theorem foldClassify_cjr : ∀ (l : List String) (o o2 : CommandLineOptions),
    l.foldlM classifyInputToken o = .ok o2 →
    o2.combinedJsonRequests = o.combinedJsonRequests
  | [], o, o2, h => by
    have h2 : o = o2 := Except.ok.inj h
    rw [← h2]
  | a :: rest, o, o2, h => by
    rw [List.foldlM_cons] at h
    rcases hc : classifyInputToken o a with e | o1 <;> rw [hc] at h
    · exact absurd h (by simp [Bind.bind, Except.bind])
    · have h2 : rest.foldlM classifyInputToken o1 = .ok o2 := h
      rw [foldClassify_cjr rest o1 o2 h2, classifyInputToken_cjr o a o1 hc]

theorem parseInputPathsAndRemappings_cjr (args : Args) (o o2 : CommandLineOptions)
    (h : parseInputPathsAndRemappings args o = .ok o2) :
    o2.combinedJsonRequests = o.combinedJsonRequests := by
  unfold parseInputPathsAndRemappings at h
  exact (foldClassify_cjr args.inputFiles _ o2 h).trans rfl

set_option maxHeartbeats 1000000 in
theorem stageInputsLibs_cjr (ext : Ext) (args : Args) (o : CommandLineOptions) :
    (∀ o2, stageInputsLibs ext args o = .ok o2 →
      o2.combinedJsonRequests = o.combinedJsonRequests)
    ∧ ∀ r p, stageInputsLibs ext args o = .error r → r ≠ .success p := by
  constructor
  · intro o2 h
    unfold stageInputsLibs at h
    split at h
    · simp_all
    · rename_i o1 hp
      split at h
      · simp_all
      · split at h
        · simp only [Except.ok.injEq] at h
          subst h
          exact parseInputPathsAndRemappings_cjr args o o1 hp
        · split at h
          · simp only [Except.ok.injEq] at h
            subst h
            exact parseInputPathsAndRemappings_cjr args o o1 hp
          · simp_all
  · intro r p h
    unfold stageInputsLibs at h
    repeat' split at h
    all_goals simp_all
    all_goals subst h
    all_goals simp

theorem asmStepYulOpt_cjr (ext : Ext) (args : Args) (o : CommandLineOptions) :
    (∀ o2, asmStepYulOpt ext args o = .ok o2 →
      o2.combinedJsonRequests = o.combinedJsonRequests)
    ∧ ∀ r p, asmStepYulOpt ext args o = .error r → r ≠ .success p := by
  constructor
  · intro o2 h
    unfold asmStepYulOpt at h
    repeat' split at h
    all_goals simp_all
    all_goals subst h; rfl
  · intro r p h
    unfold asmStepYulOpt at h
    repeat' split at h
    all_goals simp_all
    all_goals subst h
    all_goals simp

theorem asmStepMachine_cjr (args : Args) (o : CommandLineOptions) :
    (∀ o2, asmStepMachine args o = .ok o2 →
      o2.combinedJsonRequests = o.combinedJsonRequests)
    ∧ ∀ r p, asmStepMachine args o = .error r → r ≠ .success p := by
  constructor
  · intro o2 h
    unfold asmStepMachine at h
    repeat' split at h
    all_goals simp_all
    all_goals subst h; rfl
  · intro r p h
    unfold asmStepMachine at h
    repeat' split at h
    all_goals simp_all
    all_goals subst h
    all_goals simp

theorem asmStepDialect_cjr (args : Args) (o : CommandLineOptions) :
    (∀ o2, asmStepDialect args o = .ok o2 →
      o2.combinedJsonRequests = o.combinedJsonRequests)
    ∧ ∀ r p, asmStepDialect args o = .error r → r ≠ .success p := by
  constructor
  · intro o2 h
    unfold asmStepDialect at h
    rcases hd : args.yulDialect with _ | d
    · simp only [hd] at h
      rw [← Except.ok.inj h]
    · simp only [hd] at h
      by_cases hdev : d = "evm"
      · rw [if_pos hdev] at h
        have h2 := Except.ok.inj h
        rw [← h2]
      · rw [if_neg hdev] at h
        by_cases hdew : d = "ewasm"
        · rw [if_pos hdew] at h
          by_cases hm : o.targetMachine = Machine.Ewasm
          · rw [if_neg (fun hne => hne hm)] at h
            have h2 := Except.ok.inj h
            rw [← h2]
          · rw [if_pos hm] at h
            exact absurd h (by simp)
        · rw [if_neg hdew] at h
          exact absurd h (by simp)
  · intro r p h
    unfold asmStepDialect at h
    rcases hd : args.yulDialect with _ | d
    · simp only [hd] at h
      exact absurd h (by simp)
    · simp only [hd] at h
      by_cases hdev : d = "evm"
      · rw [if_pos hdev] at h
        exact absurd h (by simp)
      · rw [if_neg hdev] at h
        by_cases hdew : d = "ewasm"
        · rw [if_pos hdew] at h
          by_cases hm : o.targetMachine = Machine.Ewasm
          · rw [if_neg (fun hne => hne hm)] at h
            exact absurd h (by simp)
          · rw [if_pos hm] at h
            have h2 : ParseResult.failure
                "If you select Ewasm as --yul-dialect, --machine has to be Ewasm as well." = r :=
              Except.error.inj h
            rw [← h2]
            simp
        · rw [if_neg hdew] at h
          have h2 : ParseResult.failure ("Invalid option for --yul-dialect: " ++ d) = r :=
            Except.error.inj h
          rw [← h2]
          simp

theorem assemblerModeTail_cjr (ext : Ext) (args : Args) (o p : CommandLineOptions)
    (h : assemblerModeTail ext args o = .success p) :
    p.combinedJsonRequests = o.combinedJsonRequests := by
  unfold assemblerModeTail at h
  rcases h1 : asmStepYulOpt ext args o with r | o1
  · simp only [h1] at h
    exact absurd h ((asmStepYulOpt_cjr ext args o).2 r p h1)
  · simp only [h1] at h
    rcases h2 : asmStepMachine args o1 with r | o2
    · simp only [h2] at h
      exact absurd h ((asmStepMachine_cjr args o1).2 r p h2)
    · simp only [h2] at h
      rcases h3 : asmStepDialect args
          (if o2.targetMachine = Machine.Ewasm ∧
              o2.inputAssemblyLanguage = AsmLang.StrictAssembly then
            { o2 with inputAssemblyLanguage := AsmLang.Ewasm }
          else o2) with r | o3
      · simp only [h3] at h
        exact absurd h ((asmStepDialect_cjr args _).2 r p h3)
      · simp only [h3] at h
        split at h
        · simp at h
        · split at h
          · simp at h
          · have hp : o3 = p := by simpa using h
            have hup : (if o2.targetMachine = Machine.Ewasm ∧
                  o2.inputAssemblyLanguage = AsmLang.StrictAssembly then
                  { o2 with inputAssemblyLanguage := AsmLang.Ewasm }
                else o2).combinedJsonRequests = o2.combinedJsonRequests := by
              split <;> rfl
            rw [← hp, ((asmStepDialect_cjr args _).1 o3 h3).trans hup,
              (asmStepMachine_cjr args o1).1 o2 h2,
              (asmStepYulOpt_cjr ext args o).1 o1 h1]

theorem assemblerMode_cjr (ext : Ext) (args : Args) (o p : CommandLineOptions)
    (h : assemblerMode ext args o = .success p) :
    p.combinedJsonRequests = o.combinedJsonRequests := by
  unfold assemblerMode at h
  split at h
  · simp at h
  · exact (assemblerModeTail_cjr ext args _ p h).trans rfl

set_option maxHeartbeats 1000000 in
theorem stageAssemblerLinker_cjr (ext : Ext) (args : Args) (o : CommandLineOptions) :
    (∀ o2, stageAssemblerLinker ext args o = .ok o2 →
      o2.combinedJsonRequests = o.combinedJsonRequests)
    ∧ ∀ r p, stageAssemblerLinker ext args o = .error r → r = .success p →
      p.combinedJsonRequests = o.combinedJsonRequests := by
  constructor
  · intro o2 h
    unfold stageAssemblerLinker at h
    repeat' split at h
    all_goals simp_all
  · intro r p h hr
    subst hr
    unfold stageAssemblerLinker at h
    repeat' split at h
    all_goals simp_all
    all_goals
      first
      | exact assemblerMode_cjr ext args o p h
      | rw [← h]

theorem stageMetadataHash_cjr (args : Args) (o : CommandLineOptions) :
    (∀ o2, stageMetadataHash args o = .ok o2 →
      o2.combinedJsonRequests = o.combinedJsonRequests)
    ∧ ∀ r p, stageMetadataHash args o = .error r → r ≠ .success p := by
  constructor
  · intro o2 h
    unfold stageMetadataHash at h
    repeat' split at h
    all_goals simp_all
    all_goals subst h; rfl
  · intro r p h
    unfold stageMetadataHash at h
    repeat' split at h
    all_goals simp_all
    all_goals subst h
    all_goals simp

set_option maxHeartbeats 1000000 in
theorem stageModelChecker_cjr (ext : Ext) (args : Args) (o : CommandLineOptions) :
    (∀ o2, stageModelChecker ext args o = .ok o2 →
      o2.combinedJsonRequests = o.combinedJsonRequests)
    ∧ ∀ r p, stageModelChecker ext args o = .error r → r ≠ .success p := by
  constructor
  · intro o2 h
    unfold stageModelChecker at h
    repeat' split at h
    all_goals simp_all
    all_goals subst h; rfl
  · intro r p h
    unfold stageModelChecker at h
    repeat' split at h
    all_goals simp_all
    all_goals subst h
    all_goals simp

theorem stageSimpleFlags_cjr (args : Args) (o : CommandLineOptions) :
    (∀ o2, stageSimpleFlags args o = .ok o2 →
      o2.combinedJsonRequests = o.combinedJsonRequests)
    ∧ ∀ r p, stageSimpleFlags args o = .error r → r ≠ .success p := by
  constructor
  · intro o2 h
    unfold stageSimpleFlags at h
    simp only [Except.ok.injEq] at h
    subst h
    rfl
  · intro r p h
    unfold stageSimpleFlags at h
    simp_all

theorem stageOptimizerSettings_cjr (ext : Ext) (args : Args) (o : CommandLineOptions) :
    (∀ o2, stageOptimizerSettings ext args o = .ok o2 →
      o2.combinedJsonRequests = o.combinedJsonRequests)
    ∧ ∀ r p, stageOptimizerSettings ext args o = .error r → r ≠ .success p := by
  constructor
  · intro o2 h
    unfold stageOptimizerSettings at h
    repeat' split at h
    all_goals simp_all
    all_goals subst h; rfl
  · intro r p h
    unfold stageOptimizerSettings at h
    repeat' split at h
    all_goals simp_all
    all_goals subst h
    all_goals simp

theorem stageModeFinal_cjr (args : Args) (o : CommandLineOptions) :
    (∀ o2, stageModeFinal args o = .ok o2 →
      o2.combinedJsonRequests = o.combinedJsonRequests)
    ∧ ∀ r p, stageModeFinal args o = .error r → r ≠ .success p := by
  constructor
  · intro o2 h
    unfold stageModeFinal at h
    repeat' split at h
    all_goals simp_all
    all_goals subst h; rfl
  · intro r p h
    unfold stageModeFinal at h
    repeat' split at h
    all_goals simp_all
    all_goals subst h
    all_goals simp

/-! ## Claim theorems -/

/-- Claim C7: a token stream of library specifiers (the concatenation of the
tokenizations of the `--libraries` arguments) that reaches a well-formed
specifier `name=addr` whose name is already in the accumulated mapping makes
the whole library resolution — and `parse` itself — fail with a diagnostic
naming that library, regardless of any later specifiers. -/
theorem c7_duplicate_library (ext : Ext) (argsLibs pre rest : List String)
    (m : List (String × List Nat)) (name addr : String)
    (hsplit : (argsLibs.map tokenizeLibs).flatten = pre ++ (name ++ "=" ++ addr) :: rest)
    (hn : name.data.contains '=' = false)
    (ha : addr.data.contains '=' = false)
    (htrim : boostTrim name = name)
    (hpre : pre.foldlM (parseLibraryToken ext) ([] : List (String × List Nat)) = .ok m)
    (hdup : (libLookup name m).isSome = true) :
    parseLibraries ext [] argsLibs =
      .error ("Address specified more than once for library \"" ++ name ++ "\".")
    ∧ parse ext false { libraries := argsLibs } =
      .failure ("Address specified more than once for library \"" ++ name ++ "\".") := by
  have hlib : parseLibraries ext [] argsLibs =
      .error ("Address specified more than once for library \"" ++ name ++ "\".") := by
    rw [parseLibraries_join, hsplit]
    exact foldTokens_dup ext pre rest m name addr hn ha htrim hpre hdup
  refine ⟨hlib, ?_⟩
  have e1 : stageChecksAndExits { libraries := argsLibs } false = .ok {} := rfl
  have e2 : stageRevertStrings ext { libraries := argsLibs } {} = .ok {} := rfl
  have e3 : stageCombinedJson { libraries := argsLibs } {} = .ok {} := rfl
  have e4 : stageOutputs { libraries := argsLibs } {} = .ok {} := rfl
  have e5 : stageModeExclusive { libraries := argsLibs } {} = .ok {} := rfl
  have e6 : stageStandardJson { libraries := argsLibs } {} = .ok {} := rfl
  have ep : parseInputPathsAndRemappings { libraries := argsLibs } {} = .ok {} := rfl
  have hl : ({} : CommandLineOptions).libraries = [] := rfl
  have e7 : stageInputsLibs ext { libraries := argsLibs } {} =
      .error (.failure
        ("Address specified more than once for library \"" ++ name ++ "\".")) := by
    unfold stageInputsLibs
    simp only [ep, hl, hlib]
  simp only [parse, e1, e2, e3, e4, e5, e6, e7]

/-- Witness for C7: the same library assigned twice across two `--libraries`
arguments fails naming it. -/
theorem c7_duplicate_library_witness :
    parseLibraries extTriv []
        ["A=0x0000000000000000000000000000000000000001",
         "A=0x0000000000000000000000000000000000000002"] =
      .error "Address specified more than once for library \"A\"."
    ∧ parse extTriv false
        { libraries := ["A=0x0000000000000000000000000000000000000001",
                        "A=0x0000000000000000000000000000000000000002"] } =
      .failure "Address specified more than once for library \"A\"." :=
  c7_duplicate_library extTriv
    ["A=0x0000000000000000000000000000000000000001",
     "A=0x0000000000000000000000000000000000000002"]
    ["A=0x0000000000000000000000000000000000000001"] []
    [("A", List.replicate 19 0 ++ [1])] "A" "0x0000000000000000000000000000000000000002"
    (by rfl) (by rfl) (by rfl) (by rfl) (by rfl) (by rfl)

/-- Claim C1 counterexample: with exactly `--standard-json --link` supplied,
`parse` fails but the diagnostic also names `--yul`, a mode option that was
not supplied — so the diagnostic does not name exactly the enabled options. -/
theorem c1_counterexample :
    parse extTriv false { standardJson := true, link := true } = .failure modesExclusiveMsg
    ∧ strContainsB modesExclusiveMsg "--yul" = true
    ∧ ({ standardJson := true, link := true } : Args).yul = false :=
  ⟨rfl, by decide, rfl⟩

/-- If the `--stop-after` value is absent or `parsing`, the output-options
stage continues. -/
theorem stageOutputs_ok (args : Args) (o : CommandLineOptions)
    (hstop : args.stopAfter = none ∨ args.stopAfter = some "parsing") :
    ∃ o2, stageOutputs args o = .ok o2 := by
  unfold stageOutputs
  rcases hstop with h | h <;> rw [h]
  · exact ⟨_, rfl⟩
  · exact ⟨_, rfl⟩

/-- Claim C1 (amended): when two or more of the six mode options are enabled
and every earlier check passes (color/stop-after exclusivity, no early exit,
valid revert-strings, valid combined-json, valid stop-after value), `parse`
fails and the diagnostic names all six mutually exclusive mode options — the
full fixed list, not only the enabled ones. -/
theorem c1_modes_diagnostic (ext : Ext) (ie : Bool) (args : Args)
    (h1 : exceptOkB (stageChecksAndExits args ie) = true)
    (hrev : args.revertStrings = none)
    (hcj : exceptOkB (parseCombinedJsonOption args.combinedJson) = true)
    (hstop : args.stopAfter = none ∨ args.stopAfter = some "parsing")
    (hmodes : 1 < enabledModeCount args) :
    parse ext ie args = .failure modesExclusiveMsg
    ∧ ∀ m ∈ exclusiveModes, strContainsB modesExclusiveMsg ("--" ++ m) = true := by
  constructor
  · rcases e1 : stageChecksAndExits args ie with r | o1
    · rw [e1] at h1; simp [exceptOkB] at h1
    · have e2 : stageRevertStrings ext args o1 = .ok o1 := by
        unfold stageRevertStrings; rw [hrev]
      rcases ecj : parseCombinedJsonOption args.combinedJson with e | r
      · rw [ecj] at hcj; simp [exceptOkB] at hcj
      · have e3 : stageCombinedJson args o1 = .ok { o1 with combinedJsonRequests := r } := by
          unfold stageCombinedJson; rw [ecj]
        obtain ⟨o4, e4⟩ := stageOutputs_ok args { o1 with combinedJsonRequests := r } hstop
        have e5 : stageModeExclusive args o4 = .error (.failure modesExclusiveMsg) := by
          unfold stageModeExclusive
          rw [if_pos hmodes]
        simp only [parse, e1, e2, e3, e4, e5]
  · decide

/-- Witness for C1 (amended): `--standard-json --link` fails with the
full-list diagnostic. -/
theorem c1_modes_diagnostic_witness :
    parse extTriv false { standardJson := true, link := true } = .failure modesExclusiveMsg
    ∧ ∀ m ∈ exclusiveModes, strContainsB modesExclusiveMsg ("--" ++ m) = true :=
  c1_modes_diagnostic extTriv false { standardJson := true, link := true }
    (by rfl) rfl (by rfl) (Or.inl rfl) (by decide)

/-- Claim C2 counterexample: `--yul --machine ewasm` does not resolve the
input language to Ewasm — it fails — while
`--yul --machine ewasm --yul-dialect evm` does not fail — it succeeds. -/
theorem c2_counterexample :
    parse extTriv false { yul := true, machine := some "ewasm" } =
      .failure "The selected input language is not directly supported when targeting the Ewasm machine and automatic translation is not available."
    ∧ parse extTriv false { yul := true, machine := some "ewasm", yulDialect := some "evm" } =
      .success { inputMode := .Assembler, targetMachine := .Ewasm,
                 inputAssemblyLanguage := .StrictAssembly } := by
  refine ⟨?_, ?_⟩ <;> rfl

/-- Claim C2 (amended): `--yul --machine ewasm` with no explicit dialect
fails (the silent Ewasm upgrade applies only to strict assembly, not to the
Yul language, and no automatic translation to Ewasm exists), while
`--yul --machine ewasm --yul-dialect evm` succeeds with the input language
forced to strict assembly. -/
theorem c2_yul_ewasm (ext : Ext) :
    parse ext false { yul := true, machine := some "ewasm" } =
      .failure "The selected input language is not directly supported when targeting the Ewasm machine and automatic translation is not available."
    ∧ parse ext false { yul := true, machine := some "ewasm", yulDialect := some "evm" } =
      .success { inputMode := .Assembler, targetMachine := .Ewasm,
                 inputAssemblyLanguage := .StrictAssembly } := by
  refine ⟨?_, ?_⟩ <;> rfl

/-- Witness for C2 (amended), instantiated at a non-trivial oracle bundle. -/
theorem c2_yul_ewasm_witness :
    parse { extTriv with evmVersionFromString := fun _ => true } false
        { yul := true, machine := some "ewasm" } =
      .failure "The selected input language is not directly supported when targeting the Ewasm machine and automatic translation is not available."
    ∧ parse { extTriv with evmVersionFromString := fun _ => true } false
        { yul := true, machine := some "ewasm", yulDialect := some "evm" } =
      .success { inputMode := .Assembler, targetMachine := .Ewasm,
                 inputAssemblyLanguage := .StrictAssembly } :=
  c2_yul_ewasm { extTriv with evmVersionFromString := fun _ => true }

/-- Claim C5 counterexample: `--help --color --no-color` is rejected by the
color exclusivity check, which runs before the help early exit — the help
text is not emitted and the parser does not terminate successfully. -/
theorem c5_counterexample :
    parse extTriv false { help := true, color := true, noColor := true } =
      .failure (mutualMsg "color" "no-color")
    ∧ ParseResult.failure (mutualMsg "color" "no-color") ≠ ParseResult.helpExit := by
  refine ⟨by rfl, by decide⟩

/-- Claim C5 (amended): the `--color`/`--no-color` and `--stop-after`
exclusivity checks run before the help/version/license early exits and can
reject such an invocation; when they pass, a present help (or an interactive
terminal without arguments), version, or license flag terminates the parse
before every later validation rule, whatever the rest of the argument map
contains. -/
theorem c5_early_exit (ext : Ext) (ie : Bool) (args : Args)
    (hc : (args.color && args.noColor) = false)
    (hs : findStopConflict args = none) :
    ((args.help || ie) = true → parse ext ie args = .helpExit)
    ∧ ((args.help || ie) = false → args.version = true → parse ext ie args = .versionExit)
    ∧ ((args.help || ie) = false → args.version = false → args.license = true →
        parse ext ie args = .licenseExit) := by
  refine ⟨?_, ?_, ?_⟩
  · intro hh
    have e1 : stageChecksAndExits args ie = .error .helpExit := by
      simp [stageChecksAndExits, hc, hs, hh]
    simp only [parse, e1]
  · intro hh hv
    have e1 : stageChecksAndExits args ie = .error .versionExit := by
      simp [stageChecksAndExits, hc, hs, hh, hv]
    simp only [parse, e1]
  · intro hh hv hl
    have e1 : stageChecksAndExits args ie = .error .licenseExit := by
      simp [stageChecksAndExits, hc, hs, hh, hv, hl]
    simp only [parse, e1]

/-- Witness for C5 (amended): `--help` together with an invalid
`--combined-json` value still exits with the help text. -/
theorem c5_early_exit_witness :
    parse extTriv false { help := true, combinedJson := some "bogus" } = .helpExit :=
  (c5_early_exit extTriv false { help := true, combinedJson := some "bogus" }
    rfl rfl).1 rfl

/-- Claim C8 counterexample: for the remapping token `ctx:a/b=/usr/lib` the
target's file-name component `lib` is stripped even though it is not the
literal `.`: the allowed directory recorded is `/usr`, not `/usr/lib`. -/
theorem c8_counterexample :
    parse extTriv false { inputFiles := ["ctx:a/b=/usr/lib"] } =
      .success { remappings := [⟨"ctx", "a/b", "/usr/lib"⟩],
                 allowedDirectories := ["/usr"] }
    ∧ ({ remappings := [⟨"ctx", "a/b", "/usr/lib"⟩], allowedDirectories := ["/usr"] } :
        CommandLineOptions).allowedDirectories.contains "/usr/lib" = false := by
  refine ⟨by rfl, by rfl⟩

/-- Claim C8 (amended): every positional token containing `=` that parses as
a valid remapping is recorded as a remapping and never inserted into
`sourceFilePaths`; its target (everything after the first `=`) is added to
the allowed directories with its file-name component always removed — for a
target with a trailing separator this strips only the artificial `.`
component, so `ctx:a/b=/usr/lib/` allows `/usr/lib`; all other option fields
are unchanged. -/
theorem c8_remapping (o : CommandLineOptions) (t : String) (r : Remapping)
    (hc : t.data.contains '=' = true)
    (hr : parseRemapping t = some r) :
    classifyInputToken o t = .ok { o with
      remappings := o.remappings ++ [r]
      allowedDirectories :=
        setInsert (removeFilename ⟨t.data.drop (((firstIdxOf '=' t.data).getD 0) + 1)⟩)
          o.allowedDirectories }
    ∧ (∀ ext : Ext, parse ext false { inputFiles := ["ctx:a/b=/usr/lib/"] } =
        .success { remappings := [⟨"ctx", "a/b", "/usr/lib/"⟩],
                   allowedDirectories := ["/usr/lib"] }) := by
  constructor
  · unfold classifyInputToken
    rw [if_pos hc, hr]
  · intro ext; rfl

/-- Witness for C8 (amended): the token `ctx:a/b=/usr/lib` is recorded as a
remapping, not a source path, and allows `/usr`. -/
theorem c8_remapping_witness :
    classifyInputToken {} "ctx:a/b=/usr/lib" = .ok
      { remappings := [⟨"ctx", "a/b", "/usr/lib"⟩], allowedDirectories := ["/usr"] } :=
  ((c8_remapping {} "ctx:a/b=/usr/lib" ⟨"ctx", "a/b", "/usr/lib"⟩ (by rfl) (by rfl)).1).trans
    (by rfl)

/-- Claim C10: `compact-format` and `interface` are accepted `--combined-json`
tokens that set none of the 17 request bits: an invocation requesting only
them succeeds with the requests present and all flags at their `false`
default. -/
theorem c10_combined_json_aliases (ext : Ext) :
    parse ext false { combinedJson := some "compact-format,interface" } =
      .success { combinedJsonRequests := some {} }
    ∧ g_combinedJsonArgs.contains "compact-format" = true
    ∧ g_combinedJsonArgs.contains "interface" = true := by
  refine ⟨by rfl, by rfl, by rfl⟩

/-- Witness for C10 at the concrete oracle bundle. -/
theorem c10_combined_json_aliases_witness :
    parse extTriv false { combinedJson := some "compact-format,interface" } =
      .success { combinedJsonRequests := some {} }
    ∧ g_combinedJsonArgs.contains "compact-format" = true
    ∧ g_combinedJsonArgs.contains "interface" = true :=
  c10_combined_json_aliases extTriv

/-- Claim C9: combined-json decoding runs before the standard-json mode
branch: an invocation supplying `--standard-json` together with a
`--combined-json` value whose (set-ordered) first invalid token is `t` fails
naming `t` instead of entering standard-JSON mode and succeeding (provided
the checks that precede combined-json decoding pass). -/
theorem c9_combined_before_standard_json (ext : Ext) (ie : Bool) (args : Args)
    (s t : String)
    (hstd : args.standardJson = true)
    (h1 : exceptOkB (stageChecksAndExits args ie) = true)
    (hrev : args.revertStrings = none)
    (hcjs : args.combinedJson = some s)
    (hfind : (toStringSet (splitComma s)).find?
        (fun item => ¬ g_combinedJsonArgs.contains item) = some t) :
    parse ext ie args = .failure ("Invalid option to --combined-json: " ++ t) := by
  rcases e1 : stageChecksAndExits args ie with r | o1
  · rw [e1] at h1; simp [exceptOkB] at h1
  · have e2 : stageRevertStrings ext args o1 = .ok o1 := by
      unfold stageRevertStrings; rw [hrev]
    have ecj : parseCombinedJsonOption args.combinedJson =
        .error ("Invalid option to --combined-json: " ++ t) := by
      rw [hcjs]
      simp only [parseCombinedJsonOption, hfind]
    have e3 : stageCombinedJson args o1 =
        .error (.failure ("Invalid option to --combined-json: " ++ t)) := by
      unfold stageCombinedJson; rw [ecj]
    simp only [parse, e1, e2, e3]

/-- Witness for C9: `--standard-json --combined-json abi,bogus` fails naming
`bogus`. -/
theorem c9_combined_before_standard_json_witness :
    parse extTriv false { standardJson := true, combinedJson := some "abi,bogus" } =
      .failure "Invalid option to --combined-json: bogus" :=
  (c9_combined_before_standard_json extTriv false
    { standardJson := true, combinedJson := some "abi,bogus" } "abi,bogus" "bogus"
    rfl (by rfl) rfl rfl (by rfl)).trans (by rfl)

/-- Claim C3: on a well-formed specifier token `name=addr` (one token: no
whitespace or comma; a single `=`), starting from an empty mapping,
`parseLibraryOption` succeeds — storing under `name` exactly the 20 decoded
bytes of the digits — iff the address starts with the literal `0x`, is
followed by exactly 40 hex digits that pass the external checksum oracle,
and does not decode to the all-zero address; with the `0x` prefix but a
wrong digit count it fails reporting the actual count; with 40 digits
failing the checksum it fails and the diagnostic contains the
correctly-checksummed string produced by the oracle. -/
theorem c3_library_address (ext : Ext) (name addr : String)
    (hn1 : ∀ c ∈ name.data, (isSpaceChar c || c = ',') = false)
    (hn2 : name.data.contains '=' = false)
    (ha1 : ∀ c ∈ addr.data, (isSpaceChar c || c = ',') = false)
    (ha2 : addr.data.contains '=' = false) :
    (parseLibraryOption ext [] (name ++ "=" ++ addr) =
        .ok [(name, alignRight20 (fromHexBytes (addr.data.drop 2)))]
      ↔ (addr.data.take 2 = ['0', 'x']
         ∧ (addr.data.drop 2).length = 40
         ∧ (∀ c ∈ addr.data.drop 2, (hexVal c).isSome = true)
         ∧ ext.passesAddressChecksum ⟨addr.data.drop 2⟩ = true
         ∧ (alignRight20 (fromHexBytes (addr.data.drop 2))).all (· = 0) = false))
    ∧ (addr.data.take 2 = ['0', 'x'] → (addr.data.drop 2).length ≠ 40 →
        parseLibraryOption ext [] (name ++ "=" ++ addr) =
          .error ("Invalid length for address for library \"" ++ name ++ "\": " ++
            toString (addr.data.drop 2).length ++ " instead of 40 characters."))
    ∧ (addr.data.take 2 = ['0', 'x'] → (addr.data.drop 2).length = 40 →
        ext.passesAddressChecksum ⟨addr.data.drop 2⟩ = false →
        parseLibraryOption ext [] (name ++ "=" ++ addr) =
          .error ("Invalid checksum on address for library \"" ++ name ++ "\": " ++
            (⟨addr.data.drop 2⟩ : String) ++ "\nThe correct checksum is " ++
            ext.getChecksummedAddress ⟨addr.data.drop 2⟩)
        ∧ strContainsB
            ("Invalid checksum on address for library \"" ++ name ++ "\": " ++
              (⟨addr.data.drop 2⟩ : String) ++ "\nThe correct checksum is " ++
              ext.getChecksummedAddress ⟨addr.data.drop 2⟩)
            (ext.getChecksummedAddress ⟨addr.data.drop 2⟩) = true) := by
  have htrimN : boostTrim name = name :=
    boostTrim_of_no_space (fun c hc => by
      have h := hn1 c hc
      simp only [Bool.or_eq_false_iff] at h
      exact h.1)
  have htrimA : boostTrim addr = addr :=
    boostTrim_of_no_space (fun c hc => by
      have h := ha1 c hc
      simp only [Bool.or_eq_false_iff] at h
      exact h.1)
  have hred : parseLibraryOption ext [] (name ++ "=" ++ addr) =
      addrValidate ext [] name true addr := by
    rw [parseLibraryOption_single ext [] name addr (tokenizeLibs_single name addr hn1 ha1),
        parseLibraryToken_sep ext [] name addr hn2 ha2 htrimN]
    rw [if_neg (by simp [libLookup])]
    rw [htrimA]
  refine ⟨?_, ?_, ?_⟩
  · rw [hred]
    exact addrValidate_ok_iff ext name addr
  · intro hp hl
    rw [hred]
    exact addrValidate_len ext name addr hp hl
  · intro hp hl hcs
    refine ⟨?_, ?_⟩
    · rw [hred]
      exact addrValidate_checksum ext name addr hp hl hcs
    · exact strContainsB_append_self _ _

/-- Witness for C3: the three branches at concrete inputs — a valid
checksummed non-zero address is stored as its 20 bytes, a 38-digit address
reports `38`, and a checksum mismatch reports the oracle's checksummed
string, which the diagnostic contains. -/
theorem c3_library_address_witness :
    parseLibraryOption extTriv [] ("Lib" ++ "=" ++ "0x0000000000000000000000000000000000000001") =
      .ok [("Lib", alignRight20 (fromHexBytes
        (("0x0000000000000000000000000000000000000001" : String).data.drop 2)))]
    ∧ parseLibraryOption extTriv [] ("Lib" ++ "=" ++ "0x123") =
      .error ("Invalid length for address for library \"Lib\": " ++
        toString (("0x123" : String).data.drop 2).length ++ " instead of 40 characters.")
    ∧ parseLibraryOption
        { extTriv with passesAddressChecksum := fun _ => false,
                       getChecksummedAddress := fun _ => "CHK" } []
        ("Lib" ++ "=" ++ "0x1234000000000000000000000000000000000001") =
      .error ("Invalid checksum on address for library \"Lib\": " ++
        (⟨(("0x1234000000000000000000000000000000000001" : String)).data.drop 2⟩ : String) ++
        "\nThe correct checksum is " ++ "CHK") :=
  ⟨(c3_library_address extTriv "Lib" "0x0000000000000000000000000000000000000001"
      (by decide) (by decide) (by decide) (by decide)).1.mpr
    ⟨by decide, by decide, by decide, by decide, by decide⟩,
   (c3_library_address extTriv "Lib" "0x123"
      (by decide) (by decide) (by decide) (by decide)).2.1 (by decide) (by decide),
   (((c3_library_address
      { extTriv with passesAddressChecksum := fun _ => false,
                     getChecksummedAddress := fun _ => "CHK" }
      "Lib" "0x1234000000000000000000000000000000000001"
      (by decide) (by decide) (by decide) (by decide)).2.2 (by decide) (by decide)
      (by rfl)).1).trans (by rfl)⟩

/-- Claim C6: in plain compiler mode, `--yul-optimizations` fails whenever
the Yul-optimizer sub-stage is disabled after the presets and the
`--no-optimize-yul` override (so both without `--optimize` and with
`--optimize --no-optimize-yul`); with the Yul optimizer enabled, an invalid
step sequence fails with the external validator's message, and a valid one
succeeds with the sequence stored verbatim. -/
theorem c6_yul_optimizations (ext : Ext) (steps : String) (o n : Bool) :
    ((o && !n) = false →
      parse ext false { optimize := o, noOptimizeYul := n, yulOptimizations := some steps } =
        .failure "--yul-optimizations is invalid if Yul optimizer is disabled")
    ∧ (o = true → n = false → ∀ e, ext.validateSequence steps = some e →
      parse ext false { optimize := o, noOptimizeYul := n, yulOptimizations := some steps } =
        .failure ("Invalid optimizer step sequence in --yul-optimizations: " ++ e))
    ∧ (o = true → n = false → ext.validateSequence steps = none →
      parse ext false { optimize := o, noOptimizeYul := n, yulOptimizations := some steps } =
        .success { optimize := true, yulOptimiserSteps := some steps }) := by
  have e1 : stageChecksAndExits
      { optimize := o, noOptimizeYul := n, yulOptimizations := some steps } false =
      .ok {} := rfl
  have e2 : ∀ oo, stageRevertStrings ext
      { optimize := o, noOptimizeYul := n, yulOptimizations := some steps } oo = .ok oo :=
    fun _ => rfl
  have e3 : stageCombinedJson
      { optimize := o, noOptimizeYul := n, yulOptimizations := some steps } {} = .ok {} := rfl
  have e4 : stageOutputs
      { optimize := o, noOptimizeYul := n, yulOptimizations := some steps } {} = .ok {} := rfl
  have e5 : stageModeExclusive
      { optimize := o, noOptimizeYul := n, yulOptimizations := some steps } {} = .ok {} := rfl
  have e6 : stageStandardJson
      { optimize := o, noOptimizeYul := n, yulOptimizations := some steps } {} = .ok {} := rfl
  have e7 : stageInputsLibs ext
      { optimize := o, noOptimizeYul := n, yulOptimizations := some steps } {} = .ok {} := rfl
  have e8 : stageAssemblerLinker ext
      { optimize := o, noOptimizeYul := n, yulOptimizations := some steps } {} = .ok {} := rfl
  have e9 : stageMetadataHash
      { optimize := o, noOptimizeYul := n, yulOptimizations := some steps } {} = .ok {} := rfl
  have e10 : stageModelChecker ext
      { optimize := o, noOptimizeYul := n, yulOptimizations := some steps } {} = .ok {} := rfl
  have e11 : stageSimpleFlags
      { optimize := o, noOptimizeYul := n, yulOptimizations := some steps } {} =
      .ok { optimize := o, noOptimizeYul := n } := rfl
  refine ⟨?_, ?_, ?_⟩
  · intro h
    have e12 : stageOptimizerSettings ext
        { optimize := o, noOptimizeYul := n, yulOptimizations := some steps }
        { optimize := o, noOptimizeYul := n } =
        .error (.failure "--yul-optimizations is invalid if Yul optimizer is disabled") := by
      unfold stageOptimizerSettings runYulOptimiserAfterPresets
      show (if ¬ (o && !n) = true then _ else _) = _
      rw [h]
      simp
    simp only [parse, e1, e2, e3, e4, e5, e6, e7, e8, e9, e10, e11, e12]
  · intro ho hn e hv
    subst ho; subst hn
    have e12 : stageOptimizerSettings ext
        { optimize := true, noOptimizeYul := false, yulOptimizations := some steps }
        { optimize := true, noOptimizeYul := false } =
        .error (.failure ("Invalid optimizer step sequence in --yul-optimizations: " ++ e)) := by
      unfold stageOptimizerSettings
      show (if ¬ runYulOptimiserAfterPresets true false = true then _
            else match ext.validateSequence steps with
              | some e => _
              | none => _) = _
      rw [hv]
      simp [runYulOptimiserAfterPresets]
    simp only [parse, e1, e2, e3, e4, e5, e6, e7, e8, e9, e10, e11, e12]
  · intro ho hn hv
    subst ho; subst hn
    have e12 : stageOptimizerSettings ext
        { optimize := true, noOptimizeYul := false, yulOptimizations := some steps }
        { optimize := true, noOptimizeYul := false } =
        .ok { optimize := true, yulOptimiserSteps := some steps } := by
      unfold stageOptimizerSettings
      show (if ¬ runYulOptimiserAfterPresets true false = true then _
            else match ext.validateSequence steps with
              | some e => _
              | none => _) = _
      rw [hv]
      simp [runYulOptimiserAfterPresets]
    have e13 : stageModeFinal
        { optimize := true, noOptimizeYul := false, yulOptimizations := some steps }
        { optimize := true, yulOptimiserSteps := some steps } =
        .ok { optimize := true, yulOptimiserSteps := some steps } := rfl
    simp only [parse, e1, e2, e3, e4, e5, e6, e7, e8, e9, e10, e11, e12, e13]

/-- Witness for C6: all three branches at concrete oracles and inputs. -/
theorem c6_yul_optimizations_witness :
    parse extTriv false
        { optimize := false, noOptimizeYul := false, yulOptimizations := some "u" } =
      .failure "--yul-optimizations is invalid if Yul optimizer is disabled"
    ∧ parse { extTriv with validateSequence := fun _ => some "BadStep" } false
        { optimize := true, noOptimizeYul := false, yulOptimizations := some "u" } =
      .failure "Invalid optimizer step sequence in --yul-optimizations: BadStep"
    ∧ parse extTriv false
        { optimize := true, noOptimizeYul := false, yulOptimizations := some "u" } =
      .success { optimize := true, yulOptimiserSteps := some "u" } :=
  ⟨(c6_yul_optimizations extTriv "u" false false).1 rfl,
   ((c6_yul_optimizations { extTriv with validateSequence := fun _ => some "BadStep" }
      "u" true false).2.1 rfl rfl "BadStep" rfl).trans (by rfl),
   (c6_yul_optimizations extTriv "u" true false).2.2 rfl rfl rfl⟩

/-- Claim C4: the `CombinedJsonRequests` field of a successfully resolved
configuration is present iff `--combined-json` was supplied;
`--combined-json abi,bin` yields exactly the `abi` and `binary` bits set;
`--combined-json abi,bogus` fails naming `bogus`; and omitting the option
leaves the field absent (the defaulted options object), not
present-with-all-bits-false. -/
theorem c4_combined_json :
    (∀ (ext : Ext) (ie : Bool) (args : Args) (opts : CommandLineOptions),
        parse ext ie args = .success opts →
        opts.combinedJsonRequests.isSome = args.combinedJson.isSome)
    ∧ (∀ ext : Ext, parse ext false { combinedJson := some "abi,bin" } =
        .success { combinedJsonRequests := some { abi := true, binary := true } })
    ∧ (∀ ext : Ext, parse ext false { combinedJson := some "abi,bogus" } =
        .failure "Invalid option to --combined-json: bogus")
    ∧ (∀ ext : Ext, parse ext false ({} : Args) = .success {})
    ∧ ({} : CommandLineOptions).combinedJsonRequests = none := by
  refine ⟨?_, fun ext => rfl, fun ext => rfl, fun ext => rfl, rfl⟩
  intro ext ie args opts h
  unfold parse at h
  rcases e1 : stageChecksAndExits args ie with r | o1
  · simp only [e1] at h
    exact absurd h (stageChecksAndExits_cjr_err args ie r e1 opts)
  · simp only [e1] at h
    have k1 : o1.combinedJsonRequests = none := stageChecksAndExits_cjr_ok args ie o1 e1
    rcases e2 : stageRevertStrings ext args o1 with r | o2
    · simp only [e2] at h
      exact absurd h ((stageRevertStrings_cjr ext args o1).2 r opts e2)
    · simp only [e2] at h
      rcases e3 : stageCombinedJson args o2 with r | o3
      · simp only [e3] at h
        exact absurd h ((stageCombinedJson_cjr args o2).2 r opts e3)
      · simp only [e3] at h
        have k3 : o3.combinedJsonRequests.isSome = args.combinedJson.isSome :=
          (stageCombinedJson_cjr args o2).1 o3 e3
        rcases e4 : stageOutputs args o3 with r | o4
        · simp only [e4] at h
          exact absurd h ((stageOutputs_cjr args o3).2 r opts e4)
        · simp only [e4] at h
          have k4 := (stageOutputs_cjr args o3).1 o4 e4
          rcases e5 : stageModeExclusive args o4 with r | o5
          · simp only [e5] at h
            exact absurd h ((stageModeExclusive_cjr args o4).2 r opts e5)
          · simp only [e5] at h
            have k5 := (stageModeExclusive_cjr args o4).1 o5 e5
            rcases e6 : stageStandardJson args o5 with r | o6
            · simp only [e6] at h
              have k6 := (stageStandardJson_cjr args o5).2 r opts e6 h
              rw [k6, k5, k4]
              exact k3
            · simp only [e6] at h
              have k6 := (stageStandardJson_cjr args o5).1 o6 e6
              rcases e7 : stageInputsLibs ext args o6 with r | o7
              · simp only [e7] at h
                exact absurd h ((stageInputsLibs_cjr ext args o6).2 r opts e7)
              · simp only [e7] at h
                have k7 := (stageInputsLibs_cjr ext args o6).1 o7 e7
                rcases e8 : stageAssemblerLinker ext args o7 with r | o8
                · simp only [e8] at h
                  have k8 := (stageAssemblerLinker_cjr ext args o7).2 r opts e8 h
                  rw [k8, k7, k6, k5, k4]
                  exact k3
                · simp only [e8] at h
                  have k8 := (stageAssemblerLinker_cjr ext args o7).1 o8 e8
                  rcases e9 : stageMetadataHash args o8 with r | o9
                  · simp only [e9] at h
                    exact absurd h ((stageMetadataHash_cjr args o8).2 r opts e9)
                  · simp only [e9] at h
                    have k9 := (stageMetadataHash_cjr args o8).1 o9 e9
                    rcases e10 : stageModelChecker ext args o9 with r | o10
                    · simp only [e10] at h
                      exact absurd h ((stageModelChecker_cjr ext args o9).2 r opts e10)
                    · simp only [e10] at h
                      have k10 := (stageModelChecker_cjr ext args o9).1 o10 e10
                      rcases e11 : stageSimpleFlags args o10 with r | o11
                      · simp only [e11] at h
                        exact absurd h ((stageSimpleFlags_cjr args o10).2 r opts e11)
                      · simp only [e11] at h
                        have k11 := (stageSimpleFlags_cjr args o10).1 o11 e11
                        rcases e12 : stageOptimizerSettings ext args o11 with r | o12
                        · simp only [e12] at h
                          exact absurd h
                            ((stageOptimizerSettings_cjr ext args o11).2 r opts e12)
                        · simp only [e12] at h
                          have k12 := (stageOptimizerSettings_cjr ext args o11).1 o12 e12
                          rcases e13 : stageModeFinal args o12 with r | o13
                          · simp only [e13] at h
                            exact absurd h ((stageModeFinal_cjr args o12).2 r opts e13)
                          · simp only [e13] at h
                            have k13 := (stageModeFinal_cjr args o12).1 o13 e13
                            have hfin : o13 = opts := ParseResult.success.inj h
                            rw [← hfin, k13, k12, k11, k10, k9, k8, k7, k6, k5, k4]
                            exact k3

/-- Witness for C4: the presence-iff at a concrete resolved invocation. -/
theorem c4_combined_json_witness :
    ({ combinedJsonRequests := some { abi := true, binary := true } } :
        CommandLineOptions).combinedJsonRequests.isSome =
      ({ combinedJson := some "abi,bin" } : Args).combinedJson.isSome :=
  c4_combined_json.1 extTriv false { combinedJson := some "abi,bin" }
    { combinedJsonRequests := some { abi := true, binary := true } } (by rfl)

end Solc
